import Mathlib

/-!
# resultados-medicos: the HTML result parser, the extractors and the fetch orchestrator

A shallow embedding of `pwa/src/api/parser.js` (`parseResults`, `extractSessionId`,
`parseUrlParams`), of `pwa/src/api/client.js` (`buildPatientUrl`, `fetchResults`,
`getPDFBlob`) and of `fetchAndDisplayResults` of `pwa/src/main.js`, together with the
properties the specification states about them.

Conventions of the embedding.

* A JavaScript string is the list of its characters (`Str`).  Every pattern and separator
  used by the code is made of ASCII characters only, so reading a string character by
  character or code unit by code unit gives the same matches.
* `constants.js` (`PATTERNS`, `BASE_URL`) is imported by the parser, and its regular
  expressions are only ever used through `match` / `matchAll` followed by `[1]`.  Each
  pattern is therefore a parameter: the function sending a string to the first capture
  group of its match(es).
* The `URL` constructor is a browser built-in: it is a parameter too, sending a string
  either to the entries of `searchParams` or to the `TypeError` it throws.
* A JavaScript exception is an `Except.error`; reading a missing array element and then
  calling a method on it is the only way the embedded parser can raise one.
* `fetch` is a parameter: the response to a call after the calls made before it, or the
  rejection of the promise.  The calls to the user interface are recorded in order; they
  test for the elements they touch and raise nothing.
-/

namespace ResultadosMedicos

/-- A JavaScript string, as the list of its characters. -/
abbrev Str := List Char

/-- The exceptions the embedded code can raise. -/
inductive JsError where
  | typeError : JsError
deriving DecidableEq, Repr

/-! ## String primitives used by the parser -/

/-- Truthiness of a JavaScript string: every string but the empty one. -/
def truthy (s : Str) : Bool := !s.isEmpty

/-- Truthiness of a value that is a string, or `null` / `undefined` (`none`). -/
def truthyOpt : Option Str → Bool
  | none => false
  | some s => truthy s

/-- The expression `a || b` on values that are strings or `null` / `undefined`. -/
def jsOr (a b : Option Str) : Option Str := if truthyOpt a then a else b

/-- The method `s.includes(sub)`: `sub` occurs somewhere in `s`. -/
def includes : Str → Str → Bool
  | [], sub => sub.isEmpty
  | c :: s, sub => sub.isPrefixOf (c :: s) || includes s sub

/-- Worker of `split`: `skip` counts the characters of a separator still to be passed over,
`acc` is the current segment, reversed. -/
def splitGo (sep : Str) : Nat → Str → Str → List Str
  | _, acc, [] => [acc.reverse]
  | skip + 1, acc, _ :: s => splitGo sep skip acc s
  | 0, acc, c :: s =>
    if sep.isPrefixOf (c :: s) then acc.reverse :: splitGo sep (sep.length - 1) [] s
    else splitGo sep 0 (c :: acc) s

/-- The method `s.split(sep)` for a non-empty separator string: the segments between the
occurrences of `sep`, found left to right without overlap. -/
def split (s sep : Str) : List Str := splitGo sep 0 [] s

/-- Worker of `stripTags`; `inTag` holds while a matched tag is being passed over. -/
def stripTagsGo : Bool → Str → Str
  | _, [] => []
  | true, c :: s => if c = '>' then stripTagsGo false s else stripTagsGo true s
  | false, c :: s =>
    if c = '<' ∧ '>' ∈ s then stripTagsGo true s else c :: stripTagsGo false s

/-- The call `.replace(/<[^>]*>/g, '')`: a `<` that has a `>` somewhere after it is removed
together with everything up to and including the first such `>`. -/
def stripTags (s : Str) : Str := stripTagsGo false s

/-- Worker of `stripEntities`; `inEntity` holds while a matched entity is being passed over. -/
def stripEntitiesGo : Bool → Str → Str
  | _, [] => []
  | true, c :: s => if c = ';' then stripEntitiesGo false s else stripEntitiesGo true s
  | false, c :: s =>
    if c = '&' ∧ s.head? ≠ some ';' ∧ ';' ∈ s then stripEntitiesGo true s
    else c :: stripEntitiesGo false s

/-- The call `.replace(/&[^;]+;/g, '')`: an `&` followed by at least one character other
than `;` and, later, by a `;` is removed together with everything up to and including the
first such `;`. -/
def stripEntities (s : Str) : Str := stripEntitiesGo false s

/-- The characters removed by `trim()`: ECMAScript WhiteSpace and LineTerminator. -/
def isWhiteSpace (c : Char) : Bool :=
  decide (c.toNat ∈ [0x09, 0x0A, 0x0B, 0x0C, 0x0D, 0x20, 0xA0, 0x1680, 0x2028, 0x2029,
    0x202F, 0x205F, 0x3000, 0xFEFF]) || (decide (0x2000 ≤ c.toNat) && decide (c.toNat ≤ 0x200A))

/-- The method `s.trim()`. -/
def trim (s : Str) : Str :=
  ((s.dropWhile isWhiteSpace).reverse.dropWhile isWhiteSpace).reverse

/-- The local function `cleanCell` of `parseResults`: tags out, entities out, trimmed. -/
def cleanCell (cellHtml : Str) : Str := trim (stripEntities (stripTags cellHtml))

/-! ## Constants and records -/

/-- The array returned by a match of `PATTERNS.CONTROL_LICENSE_URL`: its four capture
groups, each a string or `undefined`. -/
structure ControlLicenseMatch where
  g1 : Option Str
  g2 : Option Str
  g3 : Option Str
  g4 : Option Str
deriving DecidableEq, Repr

/-- The object `PATTERNS` of `constants.js`, each regular expression given by what the
parser reads from it: capture group 1 of the first match (`match`), the capture groups 1 of
all matches (`matchAll`), or the four groups of `CONTROL_LICENSE_URL`. -/
structure Patterns where
  LARGE_TABLE : Str → Option Str
  MAIN_TABLE : Str → Option Str
  TABLE_ROW : Str → List Str
  PDF_LINK : Str → Option Str
  SESSION_ID : Str → Option Str
  CONTROL_LICENSE_URL : Str → Option ControlLicenseMatch

/-- What `parser.js` imports from `constants.js`. -/
structure Constants where
  BASE_URL : Str
  PATTERNS : Patterns

/-- One parsed result row. -/
structure ResultRecord where
  order : Str
  license : Str
  transmitted : Str
  pdfUrl : Str
deriving DecidableEq, Repr

/-- The value returned by `parseUrlParams` when it is not `null`. -/
structure LookupKey where
  control : Option Str
  license : Option Str
deriving DecidableEq, Repr

/-! ## `parseResults` -/

/-- Lines 12-15 of `parseResults`: the large-only table, else the main table. -/
def matchTable (k : Constants) (html : Str) : Option Str :=
  match k.PATTERNS.LARGE_TABLE html with
  | some tableHtml => some tableHtml
  | none => k.PATTERNS.MAIN_TABLE html

/-- One iteration of the row loop of `parseResults` (lines 28-67), from the value of
`results` before the iteration to its value after it. -/
def rowStep (k : Constants) (results : List ResultRecord) (rowContent : Str) :
    Except JsError (List ResultRecord) :=
  if includes rowContent "<th".toList || !includes rowContent "<td".toList then
    .ok results
  else
    match k.PATTERNS.PDF_LINK rowContent with
    | none => .ok results
    | some link =>
      let cells := (split rowContent "<td>".toList).drop 1
      if cells.length ≥ 4 then
        match cells[1]?, cells[2]?, cells[3]? with
        | some cell1, some cell2, some cell3 =>
          let result : ResultRecord :=
            { order := if truthy (cleanCell cell1) then cleanCell cell1 else []
              license := if truthy (cleanCell cell2) then cleanCell cell2 else []
              transmitted := if truthy (cleanCell cell3) then cleanCell cell3 else []
              pdfUrl := k.BASE_URL ++ link }
          if truthy result.order && truthy result.license && truthy result.transmitted
              && truthy result.pdfUrl then
            .ok (results ++ [result])
          else
            .ok results
        | _, _, _ => .error JsError.typeError
      else
        .ok results

/-- The row loop of `parseResults` (lines 27-68) over the captured row fragments. -/
def parseRows (k : Constants) : List Str → List ResultRecord → Except JsError (List ResultRecord)
  | [], results => .ok results
  | rowContent :: rest, results =>
    match rowStep k results rowContent with
    | .ok results1 => parseRows k rest results1
    | .error e => .error e

/-- The function `parseResults(html)`. -/
def parseResults (k : Constants) (html : Str) : Except JsError (List ResultRecord) :=
  match matchTable k html with
  | none => .ok []
  | some tableHtml => parseRows k (k.PATTERNS.TABLE_ROW tableHtml) []

/-! ## `extractSessionId` -/

/-- The function `extractSessionId(cookieString)`; `none` as argument is a missing
(`null` / `undefined`) cookie string, `none` as result is `null`. -/
def extractSessionId (k : Constants) (cookieString : Option Str) : Option Str :=
  if !truthyOpt cookieString then none
  else
    match cookieString with
    | none => none
    | some s =>
      match k.PATTERNS.SESSION_ID s with
      | some sessionId => some sessionId
      | none => none

/-! ## `parseUrlParams` -/

/-- The method `searchParams.get(name)`: the value of the first entry called `name`,
`null` when there is none. -/
def searchParamsGet (searchParams : List (Str × Str)) (name : Str) : Option Str :=
  (searchParams.find? (fun p => p.1 == name)).map (fun p => p.2)

/-- Lines 95-97 of `parseUrlParams`: the control number read from the query. -/
def queryControl (searchParams : List (Str × Str)) : Option Str :=
  jsOr (searchParamsGet searchParams "controlnumber".toList)
    (searchParamsGet searchParams "control".toList)

/-- Lines 98-100 of `parseUrlParams`: the license read from the query. -/
def queryLicense (searchParams : List (Str × Str)) : Option Str :=
  jsOr (searchParamsGet searchParams "lablicense".toList)
    (searchParamsGet searchParams "license".toList)

/-- The function `parseUrlParams(url)`.  `newURL` is the `URL` constructor: the entries of
the `searchParams` of the parsed URL, or the error thrown for a string that is not an
absolute URL.  The whole body is inside `try`, and `catch` returns `null`. -/
def parseUrlParams (k : Constants) (newURL : Str → Except JsError (List (Str × Str)))
    (url : Str) : Option LookupKey :=
  match newURL url with
  | .error _ => none
  | .ok searchParams =>
    let control := queryControl searchParams
    let license := queryLicense searchParams
    if truthyOpt control && truthyOpt license then
      some { control := control, license := license }
    else
      match k.PATTERNS.CONTROL_LICENSE_URL url with
      | some m => some { control := jsOr m.g1 m.g4, license := jsOr m.g2 m.g3 }
      | none => none

/-! ## An example configuration

`constants.js` is not among the sources.  The theorems below hold for every value of
`Constants`; the concrete examples are evaluated on the configuration defined here. -/

/-- The text after the first occurrence of `sub`. -/
def afterFirst (sub : Str) : Str → Option Str
  | [] => if sub.isEmpty then some [] else none
  | c :: s => if sub.isPrefixOf (c :: s) then some ((c :: s).drop sub.length) else afterFirst sub s

/-- The text before the first occurrence of `sub`. -/
def beforeFirst (sub : Str) : Str → Option Str
  | [] => if sub.isEmpty then some [] else none
  | c :: s => if sub.isPrefixOf (c :: s) then some [] else (beforeFirst sub s).map (fun r => c :: r)

/-- The capture of `opening(.*?)closing` (dot matching every character): the text between
the first `opening` and the first `closing` after it. -/
def between (opening closing : Str) (s : Str) : Option Str :=
  (afterFirst opening s).bind (beforeFirst closing)

/-- The captures of all the matches of `opening(.*?)closing`, left to right. -/
def allBetween (opening closing : Str) : Nat → Str → List Str
  | 0, _ => []
  | fuel + 1, s =>
    match afterFirst opening s with
    | none => []
    | some r =>
      match beforeFirst closing r, afterFirst closing r with
      | some captured, some rest => captured :: allBetween opening closing fuel rest
      | _, _ => []

/-- The longest non-empty prefix made of characters other than `stop`. -/
def leadingRun (stop : Char) (s : Str) : Option Str :=
  if (s.takeWhile (fun c => c != stop)).isEmpty then none
  else some (s.takeWhile (fun c => c != stop))

/-- The capture of `name([^stop]+)`: at the first occurrence of `name` that is followed by
a character other than `stop`, the run of such characters. -/
def valueAfter (name : Str) (stop : Char) : Str → Option Str
  | [] => none
  | c :: s =>
    if name.isPrefixOf (c :: s) ∧ (leadingRun stop ((c :: s).drop name.length)).isSome then
      leadingRun stop ((c :: s).drop name.length)
    else valueAfter name stop s

/-- The text that follows the first value of `name`. -/
def restAfter (name : Str) (stop : Char) : Str → Str
  | [] => []
  | c :: s =>
    if name.isPrefixOf (c :: s) ∧ (leadingRun stop ((c :: s).drop name.length)).isSome then
      ((c :: s).drop name.length).dropWhile (fun d => d != stop)
    else restAfter name stop s

/-- A pattern capturing a control number and a license in either order: groups 1 and 2
when `controlnumber=` comes first, groups 3 and 4 when `lablicense=` comes first. -/
def exampleControlLicense (s : Str) : Option ControlLicenseMatch :=
  match valueAfter "controlnumber=".toList '&' s with
  | some c =>
    match valueAfter "lablicense=".toList '&' (restAfter "controlnumber=".toList '&' s) with
    | some l => some { g1 := some c, g2 := some l, g3 := none, g4 := none }
    | none =>
      match valueAfter "lablicense=".toList '&' s with
      | some l1 =>
        match valueAfter "controlnumber=".toList '&' (restAfter "lablicense=".toList '&' s) with
        | some c1 => some { g1 := none, g2 := none, g3 := some l1, g4 := some c1 }
        | none => none
      | none => none
  | none => none

/-- Modelled from the spec: `constants.js` is missing from the sources.  A large/desktop
table pattern, a main table pattern, a row-boundary pattern, a PDF link pattern, a
session-cookie pattern, a combined control/license pattern, and a base origin. -/
def exampleConstants : Constants where
  BASE_URL := "https://misresultados.com".toList
  PATTERNS :=
    { LARGE_TABLE := between "<table class=\"large-only\">".toList "</table>".toList
      MAIN_TABLE := between "<table>".toList "</table>".toList
      TABLE_ROW := fun t => allBetween "<tr>".toList "</tr>".toList t.length t
      PDF_LINK := fun row =>
        match between "href=\"".toList "\"".toList row with
        | some link => if includes link ".pdf".toList then some link else none
        | none => none
      SESSION_ID := valueAfter "PHPSESSID=".toList ';'
      CONTROL_LICENSE_URL := exampleControlLicense }

/-- The entries of a query string: the pieces between `&`, each cut at its first `=`. -/
def queryEntries (query : Str) : List (Str × Str) :=
  ((split query "&".toList).filter (fun piece => !piece.isEmpty)).map
    (fun piece => (piece.takeWhile (fun c => c != '='), (piece.dropWhile (fun c => c != '=')).drop 1))

/-- The `URL` constructor, simplified to the strings used in the examples: a string that
starts with `https://` followed by a host name, and is free of `#`, `%`, `+` and white
space, is an absolute URL whose query is what follows the first `?`; a string without a
scheme is rejected with a `TypeError`. -/
def exampleURL (url : Str) : Except JsError (List (Str × Str)) :=
  if "https://".toList.isPrefixOf url ∧ ¬ url.any (fun c => c == '#' || c == '%' || c == '+' || isWhiteSpace c) then
    .ok (queryEntries ((url.dropWhile (fun c => c != '?')).drop 1))
  else
    .error JsError.typeError

/-- The records one row adds to `results`. -/
def rowRecords (k : Constants) (rowContent : Str) : List ResultRecord :=
  match rowStep k [] rowContent with
  | .ok added => added
  | .error _ => []

/-- The records a list of rows adds to `results`. -/
def tableRecords (k : Constants) : List Str → List ResultRecord
  | [] => []
  | rowContent :: rest => rowRecords k rowContent ++ tableRecords k rest


/-- The data cells of a row as the specification words them: each cell is opened by a
data-cell tag `<td`, with or without attributes, and holds what follows the end of that
opening tag up to the next data-cell tag. -/
def dataCellsSpec (rowContent : Str) : List Str :=
  ((split rowContent "<td".toList).drop 1).map
    (fun segment => (segment.dropWhile (fun c => c != '>')).drop 1)

/-! ## Example inputs -/

/-- The data row of scenario A: link `/pdf/abc.pdf`, order `000123`, license `LAB01`,
transmitted `2024-01-05 10:00`. -/
def rowA : Str :=
  "<td><a href=\"/pdf/abc.pdf\">PDF</a></td><td>000123</td><td>LAB01</td><td>2024-01-05 10:00</td>".toList

/-- Scenario A: a page whose table has the single row `rowA`. -/
def scenarioA : Str :=
  "<html><body><table><tr>".toList ++ rowA ++ "</tr></table></body></html>".toList

/-- The record of scenario A. -/
def recordA : ResultRecord where
  order := "000123".toList
  license := "LAB01".toList
  transmitted := "2024-01-05 10:00".toList
  pdfUrl := "https://misresultados.com/pdf/abc.pdf".toList

/-- A header row. -/
def headerB : Str := "<th>PDF</th><th>Order</th><th>License</th><th>Transmitted</th>".toList

/-- Scenario B: a large-only table with the header row `headerB` and the data row `rowA`. -/
def scenarioB : Str :=
  "<table class=\"large-only\"><tr>".toList ++ headerB ++ "</tr><tr>".toList ++ rowA
    ++ "</tr></table>".toList

/-- The row of scenario A with an attribute on every data-cell tag. -/
def attrRow : Str :=
  "<td class=\"c\"><a href=\"/pdf/abc.pdf\">PDF</a></td><td class=\"c\">000123</td><td class=\"c\">LAB01</td><td class=\"c\">2024-01-05 10:00</td>".toList

/-- A page whose table has the single row `attrRow`. -/
def attrHtml : Str :=
  "<html><body><table><tr>".toList ++ attrRow ++ "</tr></table></body></html>".toList

/-- A row with a PDF link and only three `<td>` segments. -/
def shortRow : Str :=
  "<td><a href=\"/pdf/abc.pdf\">PDF</a></td><td>000123</td><td>LAB01</td>".toList

deriving instance DecidableEq for Except

/-! ## `client.js`: the fetch orchestrator -/

/-- The names of the form fields, `FORM_FIELDS` of `constants.js`. -/
structure FormFields where
  LAST_NAME : Str
  BIRTH_YEAR : Str
  BIRTH_MONTH : Str
  BIRTH_DAY : Str
  CONTROL_NUMBER : Str
  LICENSE_NUMBER : Str
  RECAPTCHA : Str

/-- What `client.js` imports from `constants.js`: what the parser imports, and besides
`PATIENT_PATH`, `FORM_FIELDS` and the string `PATTERNS.PDF_HEADER`. -/
structure ClientConstants extends Constants where
  PATIENT_PATH : Str
  FORM_FIELDS : FormFields
  PDF_HEADER : Str

/-- The patient record read from storage. -/
structure PatientInfo where
  name : Str
  year : Str
  month : Str
  day : Str
deriving DecidableEq, Repr

/-- The HTTP method of a request. -/
inductive Method where
  | GET : Method
  | POST : Method
deriving DecidableEq, Repr

/-- A call of `fetch`: the URL and the options passed with it; `body` holds the entries of
the form data that is sent serialised. -/
structure Request where
  method : Method
  url : Str
  headers : List (Str × Str)
  body : Option (List (Str × Str))
  credentials : Str
deriving DecidableEq, Repr

/-- The content of a response, as `response.blob()` gives it: its declared type and its
bytes read as text. -/
structure Blob where
  type : Str
  text : Str
deriving DecidableEq, Repr

/-- What the client reads of a response: status, status text, content, and the value of
`headers.get('set-cookie')` (`none` for `null`). -/
structure Response where
  status : Nat
  statusText : Str
  blob : Blob
  setCookie : Option Str
deriving DecidableEq, Repr

/-- The property `response.ok`: the status is in the range 200-299. -/
def Response.ok (r : Response) : Bool := decide (200 ≤ r.status) && decide (r.status ≤ 299)

/-- The transport: the outcome of a call of `fetch` after the calls made before it, `none`
when the promise is rejected (network failure). -/
abbrev Transport := List Request → Request → Option Response

/-- The errors raised by the client. -/
inductive ClientError where
  | httpStatus (status : Nat) (statusText : Str) : ClientError
  | notPDF : ClientError
  | network : ClientError
  | js (e : JsError) : ClientError
deriving DecidableEq, Repr

/-- The field `userAgent` set by the constructor. -/
def userAgent : Str :=
  "MisResultados-PWA (+https://github.com/Boricua-Tools/resultados-medicos)".toList

/-- The method `buildPatientUrl(control, license)`. -/
def buildPatientUrl (ck : ClientConstants) (control license : Str) : Str :=
  ck.BASE_URL ++ ck.PATIENT_PATH ++ "?controlnumber=".toList ++ control
    ++ "&lablicense=".toList ++ license

/-- The method `buildFormData(patientInfo, control, license)`: the entries of the form data,
for field names that differ from one another. -/
def buildFormData (ck : ClientConstants) (patientInfo : PatientInfo) (control license : Str) :
    List (Str × Str) :=
  [(ck.FORM_FIELDS.LAST_NAME, patientInfo.name),
   (ck.FORM_FIELDS.BIRTH_YEAR, patientInfo.year),
   (ck.FORM_FIELDS.BIRTH_MONTH, patientInfo.month),
   (ck.FORM_FIELDS.BIRTH_DAY, patientInfo.day),
   (ck.FORM_FIELDS.CONTROL_NUMBER, control),
   (ck.FORM_FIELDS.LICENSE_NUMBER, license),
   (ck.FORM_FIELDS.RECAPTCHA, [])]

/-- The first call of `fetch` in `fetchResults`. -/
def getRequest (patientUrl : Str) : Request where
  method := Method.GET
  url := patientUrl
  headers := [("User-Agent".toList, userAgent), ("Accept-Language".toList, "en-US,en;q=0.5".toList)]
  body := none
  credentials := "include".toList

/-- The second call of `fetch` in `fetchResults`. -/
def postRequest (ck : ClientConstants) (patientUrl : Str) (formData : List (Str × Str)) :
    Request where
  method := Method.POST
  url := patientUrl
  headers := [("User-Agent".toList, userAgent), ("Accept-Language".toList, "en-US,en;q=0.5".toList),
    ("Content-Type".toList, "application/x-www-form-urlencoded".toList),
    ("Referer".toList, patientUrl), ("Origin".toList, ck.BASE_URL)]
  body := some formData
  credentials := "include".toList

/-- A run of `fetchResults`: what it returns or throws, the calls of `fetch` it made, in
order, and the value of `this.sessionId` at the end. -/
structure FetchRun where
  result : Except ClientError (List ResultRecord)
  requests : List Request
  sessionId : Option Str

/-- The method `fetchResults(patientInfo, control, license)`, run on the transport `fetch`
after the calls `history`, with `sessionId` the value of `this.sessionId` at the start.
The `catch` of the method throws again what it catches. -/
def fetchResults (ck : ClientConstants) (fetch : Transport) (history : List Request)
    (sessionId : Option Str) (patientInfo : PatientInfo) (control license : Str) : FetchRun :=
  let patientUrl := buildPatientUrl ck control license
  match fetch history (getRequest patientUrl) with
  | none => { result := .error ClientError.network, requests := [getRequest patientUrl],
              sessionId := sessionId }
  | some getResponse =>
    if !getResponse.ok then
      { result := .error (ClientError.httpStatus getResponse.status getResponse.statusText),
        requests := [getRequest patientUrl], sessionId := sessionId }
    else
      let formData := buildFormData ck patientInfo control license
      let requests := [getRequest patientUrl, postRequest ck patientUrl formData]
      match fetch (history ++ [getRequest patientUrl]) (postRequest ck patientUrl formData) with
      | none => { result := .error ClientError.network, requests := requests,
                  sessionId := sessionId }
      | some postResponse =>
        if !postResponse.ok then
          { result := .error (ClientError.httpStatus postResponse.status postResponse.statusText),
            requests := requests, sessionId := sessionId }
        else
          match parseResults ck.toConstants postResponse.blob.text with
          | .error e => { result := .error (ClientError.js e), requests := requests,
                          sessionId := sessionId }
          | .ok results =>
            { result := .ok results
              requests := requests
              sessionId :=
                if truthyOpt postResponse.setCookie then
                  extractSessionId ck.toConstants postResponse.setCookie
                else sessionId }

/-- The call of `fetch` in `getPDFBlob`. -/
def pdfRequest (pdfUrl : Str) : Request where
  method := Method.GET
  url := pdfUrl
  headers := [("User-Agent".toList, userAgent), ("Accept".toList, "application/pdf,*/*".toList)]
  body := none
  credentials := "include".toList

/-- The method `getPDFBlob(pdfUrl)`, run on the transport `fetch` after the calls
`history`.  The `catch` of the method throws again what it catches. -/
def getPDFBlob (ck : ClientConstants) (fetch : Transport) (history : List Request)
    (pdfUrl : Str) : Except ClientError Blob :=
  match fetch history (pdfRequest pdfUrl) with
  | none => .error ClientError.network
  | some response =>
    if !response.ok then
      .error (ClientError.httpStatus response.status response.statusText)
    else
      let blob := response.blob
      if !includes blob.type "pdf".toList then
        if !includes blob.text ck.PDF_HEADER then
          .error ClientError.notPDF
        else .ok blob
      else .ok blob

/-! ## `main.js`: `fetchAndDisplayResults` -/

/-- The calls made to the user interface; a message is named by its translation key. -/
inductive UiCall where
  | showToast (key type : Str) : UiCall
  | showScreen (screenId : Str) : UiCall
  | showLoading (key : Str) : UiCall
  | hideLoading : UiCall
  | displayResults (results : List ResultRecord) : UiCall
deriving DecidableEq, Repr

/-- The state `fetchAndDisplayResults` works on: the module variable `currentResults`, the
field `sessionId` of `apiClient`, the calls of `fetch` made so far and the calls made to
the user interface so far. -/
structure AppState where
  currentResults : List ResultRecord
  sessionId : Option Str
  requests : List Request
  ui : List UiCall

/-- The body of the `try` block of `fetchAndDisplayResults` (lines 231-247): the error it
throws, if any, and the state it leaves. -/
def fetchAndDisplayTry (ck : ClientConstants) (fetch : Transport) (patientInfo : PatientInfo)
    (control license : Str) (st : AppState) : Option ClientError × AppState :=
  let st1 : AppState := { st with ui := st.ui ++ [UiCall.showLoading "loading.fetchingResults".toList] }
  let run := fetchResults ck fetch st1.requests st1.sessionId patientInfo control license
  let st2 : AppState :=
    { st1 with sessionId := run.sessionId, requests := st1.requests ++ run.requests }
  match run.result with
  | .error e => (some e, st2)
  | .ok results =>
    let st3 : AppState := { st2 with ui := st2.ui ++ [UiCall.hideLoading] }
    if results.length = 0 then
      (none, { st3 with ui := st3.ui ++ [UiCall.showToast "results.noResults".toList "warning".toList] })
    else
      (none, { st3 with
        currentResults := results
        ui := st3.ui ++ [UiCall.displayResults results, UiCall.showScreen "results-screen".toList] })

/-- The function `fetchAndDisplayResults(control, license)`; `patientInfo` is what
`getPatientInfo()` returns (`none` for `null`).  The result is the error the function lets
through, if any, and the state it leaves. -/
def fetchAndDisplayResults (ck : ClientConstants) (fetch : Transport)
    (patientInfo : Option PatientInfo) (control license : Str) (st : AppState) :
    Option ClientError × AppState :=
  match patientInfo with
  | none =>
    (none, { st with ui := st.ui ++ [UiCall.showToast "errors.noPatientInfo".toList "error".toList,
      UiCall.showScreen "setup-screen".toList] })
  | some info =>
    match fetchAndDisplayTry ck fetch info control license st with
    | (none, st1) => (none, st1)
    | (some _, st1) =>
      (none, { st1 with ui := st1.ui ++ [UiCall.hideLoading,
        UiCall.showToast "errors.fetchFailed".toList "error".toList] })

/-! ## Properties of cleaned text, in the words of the specification -/

/-- A markup tag occurs in `s`: a `<` followed, later, by a `>`. -/
def hasTag : Str → Bool
  | [] => false
  | c :: s => (c == '<' && s.contains '>') || hasTag s

/-- The text `s` starts with one or more characters other than `;` and then holds a `;`. -/
def entityTail : Str → Bool
  | [] => false
  | d :: s => d != ';' && s.contains ';'

/-- A character-entity sequence occurs in `s`: an `&` followed by one or more characters
other than `;` and then by a `;`. -/
def hasEntity : Str → Bool
  | [] => false
  | c :: s => (c == '&' && entityTail s) || hasEntity s

/-- The text `s` neither starts nor ends with white space. -/
def isTrimmed (s : Str) : Bool :=
  !(s.head?.map isWhiteSpace == some true) && !(s.getLast?.map isWhiteSpace == some true)

/-! ## Example client configuration and transports -/

/-- Modelled from the spec: `constants.js` is missing from the sources.  The example
configuration of the parser, a patient path, form field names and the PDF marker. -/
def exampleClientConstants : ClientConstants where
  toConstants := exampleConstants
  PATIENT_PATH := "/patient".toList
  FORM_FIELDS :=
    { LAST_NAME := "lastname".toList
      BIRTH_YEAR := "year".toList
      BIRTH_MONTH := "month".toList
      BIRTH_DAY := "day".toList
      CONTROL_NUMBER := "controlnumber".toList
      LICENSE_NUMBER := "lablicense".toList
      RECAPTCHA := "recaptcha".toList }
  PDF_HEADER := "%PDF".toList

/-- A patient record. -/
def examplePatient : PatientInfo where
  name := "RIVERA".toList
  year := "1980".toList
  month := "01".toList
  day := "05".toList

/-- A response with status 200. -/
def okResponse (type text : Str) (setCookie : Option Str) : Response where
  status := 200
  statusText := "OK".toList
  blob := { type := type, text := text }
  setCookie := setCookie

/-- A response with status 500. -/
def errorResponse : Response where
  status := 500
  statusText := "Internal Server Error".toList
  blob := { type := "text/html".toList, text := "<html>error</html>".toList }
  setCookie := none

/-- A transport that answers every call with the same response. -/
def constTransport (r : Response) : Transport := fun _ _ => some r

/-- A portal that serves the form page on GET and the page of scenario A on POST. -/
def portalTransport : Transport := fun _ request =>
  match request.method with
  | Method.GET => some (okResponse "text/html".toList "<html><form></form></html>".toList none)
  | Method.POST =>
    some (okResponse "text/html".toList scenarioA (some "PHPSESSID=abc123; path=/".toList))

/-- A portal whose form page is served but whose form submission fails with status 500. -/
def failingPostTransport : Transport := fun _ request =>
  match request.method with
  | Method.GET => some (okResponse "text/html".toList "<html><form></form></html>".toList none)
  | Method.POST => some errorResponse

/-- An HTML page whose text holds the PDF marker, not at its start. -/
def htmlWithMarker : Blob where
  type := "text/html".toList
  text := "<html><body>Your %PDF is not ready</body></html>".toList

/-- An HTML page without the PDF marker. -/
def htmlPage : Blob where
  type := "text/html".toList
  text := "<html><body>Session expired</body></html>".toList

/-- An application state with one stored result. -/
def exampleState : AppState where
  currentResults := [recordA]
  sessionId := none
  requests := []
  ui := []

/-! ## Links built by the client -/

/-- An ASCII letter or digit. -/
def isAsciiAlnum (c : Char) : Bool :=
  (decide (48 ≤ c.toNat) && decide (c.toNat ≤ 57)) ||
    (decide (65 ≤ c.toNat) && decide (c.toNat ≤ 90)) ||
    (decide (97 ≤ c.toNat) && decide (c.toNat ≤ 122))

/-- The text `base` is a well-formed absolute URL without a query, as the `URL` constructor
`newURL` sees it: followed by `?` and by a query made of ASCII letters, digits, `=` and `&`
it is accepted, and its `searchParams` are the entries of that query. -/
def QuerylessURL (newURL : Str → Except JsError (List (Str × Str))) (base : Str) : Prop :=
  ∀ query : Str, (∀ c ∈ query, isAsciiAlnum c = true ∨ c = '=' ∨ c = '&') →
    newURL (base ++ '?' :: query) = .ok (queryEntries query)

/-! ## Lemmas on the primitives and on the row loop -/

theorem truthy_iff (s : Str) : truthy s = true ↔ s ≠ [] := by
  cases s <;> simp [truthy]

theorem orEmpty_eq (s : Str) : (if truthy s = true then s else []) = s := by
  cases s <;> simp [truthy]

theorem includes_of_prefix (sub : Str) : ∀ s : Str, sub.isPrefixOf s = true → includes s sub = true
  | [], h => by
    cases sub with
    | nil => rfl
    | cons a l => simp [List.isPrefixOf] at h
  | c :: s, h => by simp [includes, h]

theorem includes_tail (sub : Str) (c : Char) (s : Str) (h : includes s sub = true) :
    includes (c :: s) sub = true := by
  simp [includes, h]

theorem includes_of_splitGo (sep : Str) :
    ∀ (s : Str) (skip : Nat) (acc : Str), 2 ≤ (splitGo sep skip acc s).length → includes s sep = true
  | [], skip, acc, h => by
    cases skip <;> simp [splitGo] at h
  | c :: s, skip + 1, acc, h => by
    rw [splitGo] at h
    exact includes_tail sep c s (includes_of_splitGo sep s skip acc h)
  | c :: s, 0, acc, h => by
    rw [splitGo] at h
    by_cases hp : sep.isPrefixOf (c :: s) = true
    · exact includes_of_prefix sep (c :: s) hp
    · rw [if_neg hp] at h
      exact includes_tail sep c s (includes_of_splitGo sep s 0 (c :: acc) h)

theorem includes_append_left (p q : Str) : ∀ s : Str, includes s (p ++ q) = true → includes s p = true
  | [], h => by
    cases p with
    | nil => rfl
    | cons a l => simp [includes] at h
  | c :: s, h => by
    rw [includes, Bool.or_eq_true] at h
    rcases h with h | h
    · apply includes_of_prefix
      rw [List.isPrefixOf_iff_prefix] at h ⊢
      exact (List.prefix_append p q).trans h
    · exact includes_tail p c s (includes_append_left p q s h)

theorem includes_td_of_split (row : Str) (h : 2 ≤ (split row "<td>".toList).length) :
    includes row "<td".toList = true := by
  have h1 := includes_of_splitGo "<td>".toList row 0 [] h
  exact includes_append_left "<td".toList ">".toList row h1

theorem four_cells (cells : List Str) (h : cells.length ≥ 4) :
    ∃ c0 c1 c2 c3 more, cells = c0 :: c1 :: c2 :: c3 :: more := by
  match cells, h with
  | c0 :: c1 :: c2 :: c3 :: more, _ => exact ⟨c0, c1, c2, c3, more, rfl⟩

theorem rowStep_header (k : Constants) (results : List ResultRecord) (row : Str)
    (h : includes row "<th".toList = true ∨ includes row "<td".toList = false) :
    rowStep k results row = .ok results := by
  unfold rowStep
  rcases h with h | h
  · rw [if_pos (by rw [h]; rfl)]
  · rw [if_pos (by rw [h]; simp)]

theorem rowStep_no_link (k : Constants) (results : List ResultRecord) (row : Str)
    (h : k.PATTERNS.PDF_LINK row = none) : rowStep k results row = .ok results := by
  unfold rowStep
  split
  · rfl
  · simp [h]

theorem rowStep_few_cells (k : Constants) (results : List ResultRecord) (row : Str)
    (h : ((split row "<td>".toList).drop 1).length < 4) : rowStep k results row = .ok results := by
  unfold rowStep
  split
  · rfl
  · split
    · rfl
    · simp only [ge_iff_le]
      rw [if_neg (by omega)]

theorem rowStep_cells (k : Constants) (results : List ResultRecord) (row link c0 c1 c2 c3 : Str)
    (more : List Str)
    (hth : includes row "<th".toList = false) (htd : includes row "<td".toList = true)
    (hlink : k.PATTERNS.PDF_LINK row = some link)
    (hcells : (split row "<td>".toList).drop 1 = c0 :: c1 :: c2 :: c3 :: more) :
    rowStep k results row =
      .ok (if cleanCell c1 ≠ [] ∧ cleanCell c2 ≠ [] ∧ cleanCell c3 ≠ [] ∧ k.BASE_URL ++ link ≠ [] then
        results ++ [{ order := cleanCell c1, license := cleanCell c2, transmitted := cleanCell c3,
                      pdfUrl := k.BASE_URL ++ link }]
      else results) := by
  unfold rowStep
  simp only [hth, htd, hlink, hcells, orEmpty_eq]
  simp only [Bool.and_eq_true, truthy_iff]
  simp
  split_ifs <;> simp_all

theorem rowStep_eq (k : Constants) (results : List ResultRecord) (row : Str) :
    rowStep k results row = .ok (results ++ rowRecords k row) := by
  by_cases hh : includes row "<th".toList = true ∨ includes row "<td".toList = false
  · simp [rowRecords, rowStep_header k _ row hh]
  · have hth : includes row "<th".toList = false := by
      cases h : includes row "<th".toList
      · rfl
      · exact absurd (Or.inl h) hh
    have htd : includes row "<td".toList = true := by
      cases h : includes row "<td".toList
      · exact absurd (Or.inr h) hh
      · rfl
    cases hl : k.PATTERNS.PDF_LINK row with
    | none => simp [rowRecords, rowStep_no_link k _ row hl]
    | some link =>
      by_cases hc : ((split row "<td>".toList).drop 1).length < 4
      · simp [rowRecords, rowStep_few_cells k _ row hc]
      · obtain ⟨c0, c1, c2, c3, more, hcells⟩ := four_cells _ (Nat.le_of_not_lt hc)
        simp only [rowRecords, rowStep_cells k _ row link c0 c1 c2 c3 more hth htd hl hcells]
        split_ifs <;> simp

theorem tableRecords_append (k : Constants) (pre post : List Str) :
    tableRecords k (pre ++ post) = tableRecords k pre ++ tableRecords k post := by
  induction pre with
  | nil => rfl
  | cons row rest ih => simp [tableRecords, ih]

theorem parseRows_eq (k : Constants) :
    ∀ (rows : List Str) (results : List ResultRecord),
      parseRows k rows results = .ok (results ++ tableRecords k rows)
  | [], results => by simp [parseRows, tableRecords]
  | row :: rest, results => by
    rw [parseRows, rowStep_eq]
    simp only []
    rw [parseRows_eq k rest]
    simp [tableRecords]

theorem parseResults_eq (k : Constants) (html tableHtml : Str)
    (htable : matchTable k html = some tableHtml) :
    parseResults k html = .ok (tableRecords k (k.PATTERNS.TABLE_ROW tableHtml)) := by
  simp [parseResults, htable, parseRows_eq]

theorem rowRecords_eq_of_step (k : Constants) (row : Str) (out : List ResultRecord)
    (h : rowStep k [] row = .ok out) : rowRecords k row = out := by
  simp [rowRecords, h]

theorem mem_tableRecords (k : Constants) (r : ResultRecord) :
    ∀ rows : List Str, r ∈ tableRecords k rows → ∃ row, row ∈ rows ∧ r ∈ rowRecords k row
  | [], h => by simp [tableRecords] at h
  | row :: rest, h => by
    rw [tableRecords, List.mem_append] at h
    rcases h with h | h
    · exact ⟨row, List.mem_cons_self _ _, h⟩
    · obtain ⟨row1, hmem, hr⟩ := mem_tableRecords k r rest h
      exact ⟨row1, List.mem_cons_of_mem _ hmem, hr⟩

theorem mem_rowRecords (k : Constants) (row : Str) (r : ResultRecord) (h : r ∈ rowRecords k row) :
    includes row "<th".toList = false ∧ includes row "<td".toList = true ∧
    ∃ link c1 c2 c3, k.PATTERNS.PDF_LINK row = some link ∧
      ((split row "<td>".toList).drop 1)[1]? = some c1 ∧
      ((split row "<td>".toList).drop 1)[2]? = some c2 ∧
      ((split row "<td>".toList).drop 1)[3]? = some c3 ∧
      r = { order := cleanCell c1, license := cleanCell c2, transmitted := cleanCell c3,
            pdfUrl := k.BASE_URL ++ link } ∧
      cleanCell c1 ≠ [] ∧ cleanCell c2 ≠ [] ∧ cleanCell c3 ≠ [] ∧ k.BASE_URL ++ link ≠ [] := by
  by_cases hh : includes row "<th".toList = true ∨ includes row "<td".toList = false
  · rw [rowRecords_eq_of_step k row [] (rowStep_header k [] row hh)] at h
    simp at h
  · have hth : includes row "<th".toList = false := by
      cases h1 : includes row "<th".toList
      · rfl
      · exact absurd (Or.inl h1) hh
    have htd : includes row "<td".toList = true := by
      cases h1 : includes row "<td".toList
      · exact absurd (Or.inr h1) hh
      · rfl
    refine ⟨hth, htd, ?_⟩
    cases hl : k.PATTERNS.PDF_LINK row with
    | none =>
      rw [rowRecords_eq_of_step k row [] (rowStep_no_link k [] row hl)] at h
      simp at h
    | some link =>
      by_cases hc : ((split row "<td>".toList).drop 1).length < 4
      · rw [rowRecords_eq_of_step k row [] (rowStep_few_cells k [] row hc)] at h
        simp at h
      · obtain ⟨c0, c1, c2, c3, more, hcells⟩ := four_cells _ (Nat.le_of_not_lt hc)
        rw [rowRecords_eq_of_step k row _
          (rowStep_cells k [] row link c0 c1 c2 c3 more hth htd hl hcells)] at h
        by_cases hne : cleanCell c1 ≠ [] ∧ cleanCell c2 ≠ [] ∧ cleanCell c3 ≠ [] ∧
            k.BASE_URL ++ link ≠ []
        · rw [if_pos hne] at h
          simp only [List.nil_append, List.mem_singleton] at h
          refine ⟨link, c1, c2, c3, rfl, ?_, ?_, ?_, h, hne⟩ <;> (simp only [hcells]; try simp)
        · rw [if_neg hne] at h
          simp at h

theorem parseResults_total (k : Constants) (html : Str) :
    ∃ rs, parseResults k html = .ok rs := by
  cases htable : matchTable k html with
  | none => exact ⟨[], by simp [parseResults, htable]⟩
  | some tableHtml => exact ⟨_, parseResults_eq k html tableHtml htable⟩

/-! ## The claims on `parseResults` -/

/-- C1, as stated, fails: the row `attrRow` of the matched table has no header-cell marker,
has a PDF link, and has four data cells opened by `<td class="c">` whose cleaned texts are
`PDF`, `000123`, `LAB01` and `2024-01-05 10:00`, yet `parseResults` returns no record,
because the cells are cut at the exact text `<td>`. -/
theorem parseResults_attribute_cells_counterexample :
    (∃ tableHtml, matchTable exampleConstants attrHtml = some tableHtml ∧
      exampleConstants.PATTERNS.TABLE_ROW tableHtml = [attrRow]) ∧
    includes attrRow "<th".toList = false ∧
    exampleConstants.PATTERNS.PDF_LINK attrRow = some "/pdf/abc.pdf".toList ∧
    (dataCellsSpec attrRow).map cleanCell =
      ["PDF".toList, "000123".toList, "LAB01".toList, "2024-01-05 10:00".toList] ∧
    parseResults exampleConstants attrHtml = .ok [] := by
  set_option maxRecDepth 100000 in
  exact ⟨⟨"<tr>".toList ++ attrRow ++ "</tr>".toList, by decide, by decide⟩,
    by decide, by decide, by decide, by decide⟩

/-- C1, amended: take a row fragment of the matched table that has no header-cell marker
`<th`, has a PDF link reference, and is cut by the exact text `<td>` into a leading piece
followed by at least four segments.  With a non-empty base origin, `parseResults` returns
the records of the rows before it, then exactly one record for the row when the cleaned
2nd, 3rd and 4th segments are all non-empty (order, license and transmitted being those
cleaned texts, pdfUrl the base origin followed by the link) and no record for the row when
one of them is empty, then the records of the rows after it. -/
theorem parseResults_row_record (k : Constants) (html tableHtml : Str) (pre post : List Str)
    (row link before c0 c1 c2 c3 : Str) (more : List Str)
    (hbase : k.BASE_URL ≠ [])
    (htable : matchTable k html = some tableHtml)
    (hrows : k.PATTERNS.TABLE_ROW tableHtml = pre ++ row :: post)
    (hth : includes row "<th".toList = false)
    (hlink : k.PATTERNS.PDF_LINK row = some link)
    (hsplit : split row "<td>".toList = before :: c0 :: c1 :: c2 :: c3 :: more) :
    ∃ rs1 rs2, parseRows k pre [] = .ok rs1 ∧ parseRows k post [] = .ok rs2 ∧
      parseResults k html = .ok (rs1 ++
        (if cleanCell c1 ≠ [] ∧ cleanCell c2 ≠ [] ∧ cleanCell c3 ≠ [] then
          [{ order := cleanCell c1, license := cleanCell c2, transmitted := cleanCell c3,
             pdfUrl := k.BASE_URL ++ link }]
        else []) ++ rs2) := by
  have htd : includes row "<td".toList = true :=
    includes_td_of_split row (by rw [hsplit]; simp)
  have hcells : (split row "<td>".toList).drop 1 = c0 :: c1 :: c2 :: c3 :: more := by
    rw [hsplit]; rfl
  have hurl : k.BASE_URL ++ link ≠ [] := by
    intro h
    exact hbase (List.append_eq_nil.mp h).1
  have hrow := rowRecords_eq_of_step k row _
    (rowStep_cells k [] row link c0 c1 c2 c3 more hth htd hlink hcells)
  refine ⟨tableRecords k pre, tableRecords k post, ?_, ?_, ?_⟩
  · simp [parseRows_eq]
  · simp [parseRows_eq]
  · rw [parseResults_eq k html tableHtml htable, hrows, tableRecords_append, tableRecords, hrow]
    by_cases hne : cleanCell c1 ≠ [] ∧ cleanCell c2 ≠ [] ∧ cleanCell c3 ≠ []
    · rw [if_pos hne, if_pos ⟨hne.1, hne.2.1, hne.2.2, hurl⟩]
      simp
    · rw [if_neg hne, if_neg (fun h => hne ⟨h.1, h.2.1, h.2.2.1⟩)]
      simp

/-- Scenario A: the page with the one valid row `rowA` yields exactly `recordA`. -/
theorem parseResults_row_record_witness :
    split rowA "<td>".toList = [[], "<a href=\"/pdf/abc.pdf\">PDF</a></td>".toList,
      "000123</td>".toList, "LAB01</td>".toList, "2024-01-05 10:00</td>".toList] ∧
    parseResults exampleConstants scenarioA = .ok [recordA] := by
  set_option maxRecDepth 100000 in
  have hsplit : split rowA "<td>".toList = [[], "<a href=\"/pdf/abc.pdf\">PDF</a></td>".toList,
      "000123</td>".toList, "LAB01</td>".toList, "2024-01-05 10:00</td>".toList] := by decide
  refine ⟨hsplit, ?_⟩
  obtain ⟨rs1, rs2, h1, h2, h3⟩ := parseResults_row_record exampleConstants scenarioA
    ("<tr>".toList ++ rowA ++ "</tr>".toList) [] [] rowA "/pdf/abc.pdf".toList []
    "<a href=\"/pdf/abc.pdf\">PDF</a></td>".toList "000123</td>".toList "LAB01</td>".toList
    "2024-01-05 10:00</td>".toList [] (by decide) (by decide) (by decide) (by decide)
    (by decide) hsplit
  simp only [parseRows] at h1 h2
  cases h1
  cases h2
  rw [h3]
  decide

/-- C2: every record returned by `parseResults` has a non-empty order, a non-empty license,
a non-empty transmitted and a non-empty pdfUrl. -/
theorem parseResults_fields_nonempty (k : Constants) (html : Str) (rs : List ResultRecord)
    (r : ResultRecord) (hrun : parseResults k html = .ok rs) (hr : r ∈ rs) :
    r.order ≠ [] ∧ r.license ≠ [] ∧ r.transmitted ≠ [] ∧ r.pdfUrl ≠ [] := by
  cases htable : matchTable k html with
  | none =>
    simp [parseResults, htable] at hrun
    subst hrun
    simp at hr
  | some tableHtml =>
    rw [parseResults_eq k html tableHtml htable] at hrun
    cases hrun
    obtain ⟨row, _, hrow⟩ := mem_tableRecords k r _ hr
    obtain ⟨_, _, link, c1, c2, c3, _, _, _, _, hrec, h1, h2, h3, h4⟩ := mem_rowRecords k row r hrow
    subst hrec
    exact ⟨h1, h2, h3, h4⟩

/-- The record of scenario A has its four fields non-empty. -/
theorem parseResults_fields_nonempty_witness :
    parseResults exampleConstants scenarioA = .ok [recordA] ∧
    recordA.order ≠ [] ∧ recordA.license ≠ [] ∧ recordA.transmitted ≠ [] ∧ recordA.pdfUrl ≠ [] := by
  set_option maxRecDepth 100000 in
  exact ⟨by decide, parseResults_fields_nonempty exampleConstants scenarioA [recordA] recordA
    (by decide) (List.mem_singleton.mpr rfl)⟩

/-- C3: a row fragment of the matched table that contains `<th` or does not contain `<td`
adds no record, whatever else it contains: the result is made of the records of the rows
before it followed by the records of the rows after it.  Hence a table made of one such
header row and one valid data row yields exactly the record of the data row. -/
theorem parseResults_header_row_skipped (k : Constants) (html tableHtml : Str)
    (htable : matchTable k html = some tableHtml) :
    (∀ (pre post : List Str) (hdr : Str),
      k.PATTERNS.TABLE_ROW tableHtml = pre ++ hdr :: post →
      (includes hdr "<th".toList = true ∨ includes hdr "<td".toList = false) →
      ∃ rs1 rs2, parseRows k pre [] = .ok rs1 ∧ parseRows k post [] = .ok rs2 ∧
        parseResults k html = .ok (rs1 ++ rs2)) ∧
    (∀ (hdr row link before c0 c1 c2 c3 : Str) (more : List Str),
      k.PATTERNS.TABLE_ROW tableHtml = [hdr, row] →
      (includes hdr "<th".toList = true ∨ includes hdr "<td".toList = false) →
      includes row "<th".toList = false →
      k.PATTERNS.PDF_LINK row = some link →
      split row "<td>".toList = before :: c0 :: c1 :: c2 :: c3 :: more →
      cleanCell c1 ≠ [] → cleanCell c2 ≠ [] → cleanCell c3 ≠ [] → k.BASE_URL ++ link ≠ [] →
      parseResults k html =
        .ok [ResultRecord.mk (cleanCell c1) (cleanCell c2) (cleanCell c3) (k.BASE_URL ++ link)]) := by
  constructor
  · intro pre post hdr hrows hhdr
    refine ⟨tableRecords k pre, tableRecords k post, ?_, ?_, ?_⟩
    · simp [parseRows_eq]
    · simp [parseRows_eq]
    · rw [parseResults_eq k html tableHtml htable, hrows, tableRecords_append, tableRecords,
        rowRecords_eq_of_step k hdr [] (rowStep_header k [] hdr hhdr)]
      simp
  · intro hdr row link before c0 c1 c2 c3 more hrows hhdr hth hlink hsplit h1 h2 h3 h4
    have htd : includes row "<td".toList = true :=
      includes_td_of_split row (by rw [hsplit]; simp)
    have hcells : (split row "<td>".toList).drop 1 = c0 :: c1 :: c2 :: c3 :: more := by
      rw [hsplit]; rfl
    rw [parseResults_eq k html tableHtml htable, hrows, tableRecords, tableRecords, tableRecords,
      rowRecords_eq_of_step k hdr [] (rowStep_header k [] hdr hhdr),
      rowRecords_eq_of_step k row _
        (rowStep_cells k [] row link c0 c1 c2 c3 more hth htd hlink hcells),
      if_pos ⟨h1, h2, h3, h4⟩]
    simp

/-- Scenario B: the header row `headerB` holds `<th`, and the table made of it and of the
data row `rowA` yields exactly `recordA`. -/
theorem parseResults_header_row_skipped_witness :
    includes headerB "<th".toList = true ∧
    (∃ rs1 rs2, parseRows exampleConstants [] [] = .ok rs1 ∧
      parseRows exampleConstants [rowA] [] = .ok rs2 ∧
      parseResults exampleConstants scenarioB = .ok (rs1 ++ rs2)) ∧
    parseResults exampleConstants scenarioB = .ok [recordA] := by
  set_option maxRecDepth 100000 in
  exact ⟨by decide,
    (parseResults_header_row_skipped exampleConstants scenarioB
      ("<tr>".toList ++ headerB ++ "</tr><tr>".toList ++ rowA ++ "</tr>".toList) (by decide)).1
      [] [rowA] headerB (by decide) (Or.inl (by decide)),
    (parseResults_header_row_skipped exampleConstants scenarioB
      ("<tr>".toList ++ headerB ++ "</tr><tr>".toList ++ rowA ++ "</tr>".toList) (by decide)).2
      headerB rowA "/pdf/abc.pdf".toList [] "<a href=\"/pdf/abc.pdf\">PDF</a></td>".toList
      "000123</td>".toList "LAB01</td>".toList "2024-01-05 10:00</td>".toList []
      (by decide) (Or.inl (by decide)) (by decide) (by decide) (by decide)
      (by decide) (by decide) (by decide) (by decide)⟩

/-- C4: when neither the large-only table pattern nor the main table pattern matches the
input, `parseResults` returns the empty list and raises nothing. -/
theorem parseResults_no_table (k : Constants) (html : Str)
    (hlarge : k.PATTERNS.LARGE_TABLE html = none) (hmain : k.PATTERNS.MAIN_TABLE html = none) :
    parseResults k html = .ok [] := by
  simp [parseResults, matchTable, hlarge, hmain]

/-- Scenario C: the empty page is matched by neither table pattern and yields no record. -/
theorem parseResults_no_table_witness :
    exampleConstants.PATTERNS.LARGE_TABLE [] = none ∧
    exampleConstants.PATTERNS.MAIN_TABLE [] = none ∧
    parseResults exampleConstants [] = .ok [] :=
  ⟨by decide, by decide, parseResults_no_table exampleConstants [] (by decide) (by decide)⟩

/-- C5: every record returned by `parseResults` comes from a row fragment of the matched
table: cutting that row at `<td>` and dropping the text before the first `<td>`, the
order, license and transmitted of the record are the cleaned 2nd, 3rd and 4th segments,
and its pdfUrl is the base origin immediately followed by the PDF link captured from the
row. -/
theorem parseResults_record_origin (k : Constants) (html : Str) (rs : List ResultRecord)
    (r : ResultRecord) (hrun : parseResults k html = .ok rs) (hr : r ∈ rs) :
    ∃ tableHtml row link c1 c2 c3,
      matchTable k html = some tableHtml ∧ row ∈ k.PATTERNS.TABLE_ROW tableHtml ∧
      k.PATTERNS.PDF_LINK row = some link ∧
      ((split row "<td>".toList).drop 1)[1]? = some c1 ∧
      ((split row "<td>".toList).drop 1)[2]? = some c2 ∧
      ((split row "<td>".toList).drop 1)[3]? = some c3 ∧
      r.order = cleanCell c1 ∧ r.license = cleanCell c2 ∧ r.transmitted = cleanCell c3 ∧
      r.pdfUrl = k.BASE_URL ++ link := by
  cases htable : matchTable k html with
  | none =>
    simp [parseResults, htable] at hrun
    subst hrun
    simp at hr
  | some tableHtml =>
    rw [parseResults_eq k html tableHtml htable] at hrun
    cases hrun
    obtain ⟨row, hmem, hrow⟩ := mem_tableRecords k r _ hr
    obtain ⟨_, _, link, c1, c2, c3, hl, hc1, hc2, hc3, hrec, _⟩ := mem_rowRecords k row r hrow
    subst hrec
    exact ⟨tableHtml, row, link, c1, c2, c3, rfl, hmem, hl, hc1, hc2, hc3, rfl, rfl, rfl, rfl⟩

/-- The record of scenario A comes from a row of the table of scenario A. -/
theorem parseResults_record_origin_witness :
    parseResults exampleConstants scenarioA = .ok [recordA] ∧
    ∃ tableHtml row link c1 c2 c3,
      matchTable exampleConstants scenarioA = some tableHtml ∧
      row ∈ exampleConstants.PATTERNS.TABLE_ROW tableHtml ∧
      exampleConstants.PATTERNS.PDF_LINK row = some link ∧
      ((split row "<td>".toList).drop 1)[1]? = some c1 ∧
      ((split row "<td>".toList).drop 1)[2]? = some c2 ∧
      ((split row "<td>".toList).drop 1)[3]? = some c3 ∧
      recordA.order = cleanCell c1 ∧ recordA.license = cleanCell c2 ∧
      recordA.transmitted = cleanCell c3 ∧
      recordA.pdfUrl = exampleConstants.BASE_URL ++ link := by
  set_option maxRecDepth 100000 in
  exact ⟨by decide, parseResults_record_origin exampleConstants scenarioA [recordA] recordA
    (by decide) (List.mem_singleton.mpr rfl)⟩

/-- C6: `parseResults` never raises, it returns a list for every input; and a row that has a
PDF link but is cut into fewer than four `<td>` segments leaves `results` as it was, so
the 2nd, 3rd and 4th segment are only read when they exist. -/
theorem parseResults_never_raises (k : Constants) (html : Str) :
    (∃ rs, parseResults k html = .ok rs) ∧
    (∀ (results : List ResultRecord) (row link : Str),
      k.PATTERNS.PDF_LINK row = some link →
      ((split row "<td>".toList).drop 1).length < 4 →
      rowStep k results row = .ok results) ∧
    (∀ (results : List ResultRecord) (row : Str), rowStep k results row ≠ .error JsError.typeError) := by
  refine ⟨?_, ?_, ?_⟩
  · cases htable : matchTable k html with
    | none => exact ⟨[], by simp [parseResults, htable]⟩
    | some tableHtml => exact ⟨_, parseResults_eq k html tableHtml htable⟩
  · intro results row link _ hfew
    exact rowStep_few_cells k results row hfew
  · intro results row h
    rw [rowStep_eq] at h
    cases h

/-- The row `shortRow` has a PDF link and three `<td>` segments: it is skipped. -/
theorem parseResults_never_raises_witness :
    exampleConstants.PATTERNS.PDF_LINK shortRow = some "/pdf/abc.pdf".toList ∧
    ((split shortRow "<td>".toList).drop 1).length = 3 ∧
    rowStep exampleConstants [recordA] shortRow = .ok [recordA] := by
  set_option maxRecDepth 100000 in
  exact ⟨by decide, by decide,
    (parseResults_never_raises exampleConstants scenarioA).2.1 [recordA] shortRow
      "/pdf/abc.pdf".toList (by decide) (by decide)⟩

/-! ## The claims on `parseUrlParams` and `extractSessionId` -/

theorem jsOr_of_nonempty (s : Str) (b : Option Str) (h : s ≠ []) : jsOr (some s) b = some s := by
  cases s with
  | nil => exact absurd rfl h
  | cons c t => rfl

theorem jsOr_of_empty (b : Option Str) : jsOr (some []) b = b := rfl

theorem jsOr_of_none (b : Option Str) : jsOr none b = b := rfl

theorem truthyOpt_some_of_nonempty (s : Str) (h : s ≠ []) : truthyOpt (some s) = true := by
  cases s with
  | nil => exact absurd rfl h
  | cons c t => rfl

/-- C7: when the string parses as a URL whose query gives the non-empty value `c` for
`controlnumber` and the non-empty value `l` for `lablicense`, `parseUrlParams` returns the
key with control `c` and license `l`. -/
theorem parseUrlParams_query_pair (k : Constants)
    (newURL : Str → Except JsError (List (Str × Str))) (url : Str)
    (searchParams : List (Str × Str)) (c l : Str)
    (hurl : newURL url = .ok searchParams)
    (hc : searchParamsGet searchParams "controlnumber".toList = some c) (hcne : c ≠ [])
    (hl : searchParamsGet searchParams "lablicense".toList = some l) (hlne : l ≠ []) :
    parseUrlParams k newURL url = some { control := some c, license := some l } := by
  have h1 : queryControl searchParams = some c := by
    rw [queryControl, hc, jsOr_of_nonempty c _ hcne]
  have h2 : queryLicense searchParams = some l := by
    rw [queryLicense, hl, jsOr_of_nonempty l _ hlne]
  simp [parseUrlParams, hurl, h1, h2, truthyOpt_some_of_nonempty, hcne, hlne]

/-- The link `…?controlnumber=123&lablicense=456` gives control `123` and license `456`. -/
theorem parseUrlParams_query_pair_witness :
    exampleURL "https://misresultados.com/patient?controlnumber=123&lablicense=456".toList =
      .ok [("controlnumber".toList, "123".toList), ("lablicense".toList, "456".toList)] ∧
    parseUrlParams exampleConstants exampleURL
      "https://misresultados.com/patient?controlnumber=123&lablicense=456".toList =
      some { control := some "123".toList, license := some "456".toList } := by
  set_option maxRecDepth 100000 in
  exact ⟨by decide, parseUrlParams_query_pair exampleConstants exampleURL _
    [("controlnumber".toList, "123".toList), ("lablicense".toList, "456".toList)]
    "123".toList "456".toList (by decide) (by decide) (by decide) (by decide) (by decide)⟩

/-- C8, as stated, fails: the strings `controlnumber=123&lablicense=456` and
`lablicense=456&controlnumber=123` are not URLs, the combined pattern matches them (in its
first and in its second order of groups), and `parseUrlParams` returns `null` for both. -/
theorem parseUrlParams_non_url_counterexample :
    (exampleURL "controlnumber=123&lablicense=456".toList = .error JsError.typeError ∧
      exampleConstants.PATTERNS.CONTROL_LICENSE_URL "controlnumber=123&lablicense=456".toList =
        some { g1 := some "123".toList, g2 := some "456".toList, g3 := none, g4 := none } ∧
      parseUrlParams exampleConstants exampleURL "controlnumber=123&lablicense=456".toList = none) ∧
    (exampleURL "lablicense=456&controlnumber=123".toList = .error JsError.typeError ∧
      exampleConstants.PATTERNS.CONTROL_LICENSE_URL "lablicense=456&controlnumber=123".toList =
        some { g1 := none, g2 := none, g3 := some "456".toList, g4 := some "123".toList } ∧
      parseUrlParams exampleConstants exampleURL "lablicense=456&controlnumber=123".toList = none) := by
  set_option maxRecDepth 100000 in
  exact ⟨⟨by decide, by decide, by decide⟩, ⟨by decide, by decide, by decide⟩⟩

/-- C8, amended: for a string that cannot be parsed as a URL, `parseUrlParams` returns
`null`, whether or not the combined pattern matches it.  The combined pattern is tried on a
string that parses as a URL and whose query gives an incomplete pair: when it matches,
the result has control group 1, or else group 4, and license group 2, or else group 3;
when it does not match, the result is `null`.  These are the only two ways to get `null`. -/
theorem parseUrlParams_fallback (k : Constants)
    (newURL : Str → Except JsError (List (Str × Str))) (url : Str) :
    (∀ e, newURL url = .error e → parseUrlParams k newURL url = none) ∧
    (∀ searchParams m, newURL url = .ok searchParams →
      ¬ (truthyOpt (queryControl searchParams) = true ∧
          truthyOpt (queryLicense searchParams) = true) →
      k.PATTERNS.CONTROL_LICENSE_URL url = some m →
      parseUrlParams k newURL url =
        some { control := jsOr m.g1 m.g4, license := jsOr m.g2 m.g3 }) ∧
    (parseUrlParams k newURL url = none ↔
      ((∃ e, newURL url = .error e) ∨
        (∃ searchParams, newURL url = .ok searchParams ∧
          ¬ (truthyOpt (queryControl searchParams) = true ∧
              truthyOpt (queryLicense searchParams) = true) ∧
          k.PATTERNS.CONTROL_LICENSE_URL url = none))) := by
  refine ⟨?_, ?_, ?_⟩
  · intro e he
    simp [parseUrlParams, he]
  · intro searchParams m hok hinc hm
    simp only [parseUrlParams, hok, hm]
    rw [if_neg (by simpa [Bool.and_eq_true] using hinc)]
  · cases hnew : newURL url with
    | error e =>
      exact ⟨fun _ => Or.inl ⟨e, rfl⟩, fun _ => by simp [parseUrlParams, hnew]⟩
    | ok searchParams =>
      by_cases hpair : truthyOpt (queryControl searchParams) = true ∧
          truthyOpt (queryLicense searchParams) = true
      · have hres : parseUrlParams k newURL url =
            some { control := queryControl searchParams, license := queryLicense searchParams } := by
          simp [parseUrlParams, hnew, hpair]
        rw [hres]
        constructor
        · intro h
          cases h
        · intro h
          rcases h with ⟨e, he⟩ | ⟨sp, hsp, hinc, _⟩
          · cases he
          · cases hsp
            exact absurd hpair hinc
      · have hif : ¬ ((truthyOpt (queryControl searchParams) &&
            truthyOpt (queryLicense searchParams)) = true) := by
          simpa [Bool.and_eq_true] using hpair
        cases hm : k.PATTERNS.CONTROL_LICENSE_URL url with
        | none =>
          have hres : parseUrlParams k newURL url = none := by
            simp only [parseUrlParams, hnew, hm]
            rw [if_neg hif]
          exact ⟨fun _ => Or.inr ⟨searchParams, rfl, hpair, rfl⟩, fun _ => hres⟩
        | some m =>
          have hres : parseUrlParams k newURL url =
              some { control := jsOr m.g1 m.g4, license := jsOr m.g2 m.g3 } := by
            simp only [parseUrlParams, hnew, hm]
            rw [if_neg hif]
          rw [hres]
          constructor
          · intro h
            cases h
          · intro h
            rcases h with ⟨e, he⟩ | ⟨sp, _, _, hnone⟩
            · cases he
            · cases hnone

/-- A string without a scheme gives `null`; a URL that carries the pair in its path, not in
its query, gets it from the combined pattern. -/
theorem parseUrlParams_fallback_witness :
    parseUrlParams exampleConstants exampleURL "controlnumber=123&lablicense=456".toList = none ∧
    parseUrlParams exampleConstants exampleURL
      "https://misresultados.com/patient/lablicense=456&controlnumber=123".toList =
      some { control := some "123".toList, license := some "456".toList } := by
  set_option maxRecDepth 100000 in
  exact ⟨(parseUrlParams_fallback exampleConstants exampleURL
      "controlnumber=123&lablicense=456".toList).1 JsError.typeError (by decide),
    (parseUrlParams_fallback exampleConstants exampleURL
      "https://misresultados.com/patient/lablicense=456&controlnumber=123".toList).2.1
      [] { g1 := none, g2 := none, g3 := some "456".toList, g4 := some "123".toList }
      (by decide) (by decide) (by decide)⟩

/-- C9, as stated, fails: in `…?controlnumber=&control=5&lablicense=7` the query contains
the parameter `controlnumber` (with an empty value), and the control value taken from the
query is `5`, the value of `control`. -/
theorem queryControl_empty_alias_counterexample :
    exampleURL "https://misresultados.com/patient?controlnumber=&control=5&lablicense=7".toList =
      .ok [("controlnumber".toList, []), ("control".toList, "5".toList),
        ("lablicense".toList, "7".toList)] ∧
    searchParamsGet [("controlnumber".toList, []), ("control".toList, "5".toList),
        ("lablicense".toList, "7".toList)] "controlnumber".toList = some [] ∧
    queryControl [("controlnumber".toList, []), ("control".toList, "5".toList),
        ("lablicense".toList, "7".toList)] = some "5".toList ∧
    parseUrlParams exampleConstants exampleURL
      "https://misresultados.com/patient?controlnumber=&control=5&lablicense=7".toList =
      some { control := some "5".toList, license := some "7".toList } := by
  set_option maxRecDepth 100000 in
  exact ⟨by decide, by decide, by decide, by decide⟩

/-- C9, amended: the first alias with a non-empty value wins.  When the query gives a
non-empty value for `controlnumber`, the control value taken from the query is that value,
never that of `control`; likewise a non-empty `lablicense` takes precedence over `license`;
and with both non-empty `parseUrlParams` returns exactly these two values.  When
`controlnumber` (or `lablicense`) is absent or empty, the value of `control` (or `license`)
is taken instead. -/
theorem queryControl_first_nonempty_alias (searchParams : List (Str × Str)) :
    (∀ c, searchParamsGet searchParams "controlnumber".toList = some c → c ≠ [] →
      queryControl searchParams = some c) ∧
    (∀ l, searchParamsGet searchParams "lablicense".toList = some l → l ≠ [] →
      queryLicense searchParams = some l) ∧
    (∀ c l k newURL url, newURL url = .ok searchParams →
      searchParamsGet searchParams "controlnumber".toList = some c → c ≠ [] →
      searchParamsGet searchParams "lablicense".toList = some l → l ≠ [] →
      parseUrlParams k newURL url = some { control := some c, license := some l }) ∧
    ((searchParamsGet searchParams "controlnumber".toList = none ∨
        searchParamsGet searchParams "controlnumber".toList = some []) →
      queryControl searchParams = searchParamsGet searchParams "control".toList) ∧
    ((searchParamsGet searchParams "lablicense".toList = none ∨
        searchParamsGet searchParams "lablicense".toList = some []) →
      queryLicense searchParams = searchParamsGet searchParams "license".toList) := by
  refine ⟨?_, ?_, ?_, ?_, ?_⟩
  · intro c hc hcne
    rw [queryControl, hc, jsOr_of_nonempty c _ hcne]
  · intro l hl hlne
    rw [queryLicense, hl, jsOr_of_nonempty l _ hlne]
  · intro c l k newURL url hurl hc hcne hl hlne
    have h1 : queryControl searchParams = some c := by
      rw [queryControl, hc, jsOr_of_nonempty c _ hcne]
    have h2 : queryLicense searchParams = some l := by
      rw [queryLicense, hl, jsOr_of_nonempty l _ hlne]
    simp [parseUrlParams, hurl, h1, h2, truthyOpt_some_of_nonempty, hcne, hlne]
  · intro h
    rcases h with h | h <;> rw [queryControl, h] <;> rfl
  · intro h
    rcases h with h | h <;> rw [queryLicense, h] <;> rfl

/-- With `controlnumber=9&control=5` the control value is `9`; with `controlnumber=&control=5`
it is `5`. -/
theorem queryControl_first_nonempty_alias_witness :
    queryControl [("control".toList, "5".toList), ("controlnumber".toList, "9".toList)] =
      some "9".toList ∧
    queryControl [("controlnumber".toList, []), ("control".toList, "5".toList)] =
      some "5".toList := by
  set_option maxRecDepth 100000 in
  exact ⟨(queryControl_first_nonempty_alias
      [("control".toList, "5".toList), ("controlnumber".toList, "9".toList)]).1
      "9".toList (by decide) (by decide),
    (queryControl_first_nonempty_alias
      [("controlnumber".toList, []), ("control".toList, "5".toList)]).2.2.2.1
      (Or.inr (by decide))⟩

/-- C10: `extractSessionId` returns `null` for a missing and for an empty cookie text; for a
non-empty cookie text it returns the value captured by the session-cookie pattern when the
pattern matches and `null` when it does not; it is a total function of the cookie text, so
it raises nothing and two calls on the same text return the same value. -/
theorem extractSessionId_spec (k : Constants) :
    extractSessionId k none = none ∧
    extractSessionId k (some []) = none ∧
    (∀ (cookieString sessionId : Str), cookieString ≠ [] →
      k.PATTERNS.SESSION_ID cookieString = some sessionId →
      extractSessionId k (some cookieString) = some sessionId) ∧
    (∀ (cookieString : Str), cookieString ≠ [] →
      k.PATTERNS.SESSION_ID cookieString = none →
      extractSessionId k (some cookieString) = none) ∧
    (∀ (first second : Option Str), first = second →
      extractSessionId k first = extractSessionId k second) := by
  refine ⟨rfl, rfl, ?_, ?_, ?_⟩
  · intro cookieString sessionId hne hm
    simp [extractSessionId, truthyOpt_some_of_nonempty, hne, hm]
  · intro cookieString hne hm
    simp [extractSessionId, truthyOpt_some_of_nonempty, hne, hm]
  · intro first second h
    rw [h]

/-- A cookie text with the session cookie gives its value; one without it gives `null`. -/
theorem extractSessionId_spec_witness :
    extractSessionId exampleConstants (some "lang=es; PHPSESSID=abc123; path=/".toList) =
      some "abc123".toList ∧
    extractSessionId exampleConstants (some "lang=es; path=/".toList) = none := by
  set_option maxRecDepth 100000 in
  exact ⟨(extractSessionId_spec exampleConstants).2.2.1 "lang=es; PHPSESSID=abc123; path=/".toList
      "abc123".toList (by decide) (by decide),
    (extractSessionId_spec exampleConstants).2.2.2.1 "lang=es; path=/".toList
      (by decide) (by decide)⟩

/-! ## The claims on the fetch orchestrator -/

/-- C11, as stated, fails: the response has status 200, its declared type `text/html` does
not say PDF, and its text does not begin with the marker `%PDF` (the marker stands in the
middle of an HTML page), yet `getPDFBlob` returns the content instead of failing. -/
theorem getPDFBlob_marker_inside_counterexample :
    (okResponse htmlWithMarker.type htmlWithMarker.text none).ok = true ∧
    includes htmlWithMarker.type "pdf".toList = false ∧
    exampleClientConstants.PDF_HEADER.isPrefixOf htmlWithMarker.text = false ∧
    getPDFBlob exampleClientConstants
      (constTransport (okResponse htmlWithMarker.type htmlWithMarker.text none)) []
      "https://misresultados.com/pdf/abc.pdf".toList = .ok htmlWithMarker := by
  set_option maxRecDepth 100000 in
  exact ⟨by decide, by decide, by decide, by decide⟩

/-- C11, amended: `getPDFBlob` returns the retrieved content exactly when the request is
answered, the status is a success, and the declared content type contains `pdf` or,
failing that, the text of the content contains the PDF marker somewhere.  A non-success
status gives the HTTP-status error, a non-PDF type with a text that does not contain the
marker gives the not-a-PDF error, a rejected request gives the network error. -/
theorem getPDFBlob_spec (ck : ClientConstants) (fetch : Transport) (history : List Request)
    (pdfUrl : Str) :
    (∀ b, getPDFBlob ck fetch history pdfUrl = .ok b ↔
      ∃ r, fetch history (pdfRequest pdfUrl) = some r ∧ r.ok = true ∧ r.blob = b ∧
        (includes b.type "pdf".toList = true ∨ includes b.text ck.PDF_HEADER = true)) ∧
    (∀ r, fetch history (pdfRequest pdfUrl) = some r → r.ok = false →
      getPDFBlob ck fetch history pdfUrl = .error (ClientError.httpStatus r.status r.statusText)) ∧
    (∀ r, fetch history (pdfRequest pdfUrl) = some r → r.ok = true →
      includes r.blob.type "pdf".toList = false → includes r.blob.text ck.PDF_HEADER = false →
      getPDFBlob ck fetch history pdfUrl = .error ClientError.notPDF) ∧
    (fetch history (pdfRequest pdfUrl) = none →
      getPDFBlob ck fetch history pdfUrl = .error ClientError.network) := by
  refine ⟨?_, ?_, ?_, ?_⟩
  · intro b
    cases hf : fetch history (pdfRequest pdfUrl) with
    | none => simp [getPDFBlob, hf]
    | some r =>
      cases hok : r.ok with
      | false => simp [getPDFBlob, hf, hok]
      | true =>
        cases htype : includes r.blob.type "pdf".toList with
        | true =>
          simp only [getPDFBlob, hf, hok, htype]
          constructor
          · intro h
            cases h
            exact ⟨r, rfl, hok, rfl, Or.inl htype⟩
          · rintro ⟨r1, h1, _, h3, _⟩
            cases h1
            rw [h3]
            rfl
        | false =>
          cases htext : includes r.blob.text ck.PDF_HEADER with
          | true =>
            simp only [getPDFBlob, hf, hok, htype, htext]
            constructor
            · intro h
              cases h
              exact ⟨r, rfl, hok, rfl, Or.inr htext⟩
            · rintro ⟨r1, h1, _, h3, _⟩
              cases h1
              rw [h3]
              rfl
          | false =>
            simp only [getPDFBlob, hf, hok, htype, htext]
            constructor
            · intro h
              cases h
            · rintro ⟨r1, h1, _, h3, h4⟩
              cases h1
              subst h3
              rcases h4 with h4 | h4
              · rw [htype] at h4
                cases h4
              · rw [htext] at h4
                cases h4
  · intro r hf hok
    simp [getPDFBlob, hf, hok]
  · intro r hf hok htype htext
    simp only [getPDFBlob, hf, hok, htype, htext]
    rfl
  · intro hf
    simp [getPDFBlob, hf]

/-- Scenario D: an HTML page without the marker is refused, and a response with status 500
gives the HTTP-status error. -/
theorem getPDFBlob_spec_witness :
    getPDFBlob exampleClientConstants (constTransport (okResponse htmlPage.type htmlPage.text none))
      [] "https://misresultados.com/pdf/abc.pdf".toList = .error ClientError.notPDF ∧
    getPDFBlob exampleClientConstants (constTransport errorResponse)
      [] "https://misresultados.com/pdf/abc.pdf".toList =
      .error (ClientError.httpStatus 500 "Internal Server Error".toList) := by
  set_option maxRecDepth 100000 in
  exact ⟨(getPDFBlob_spec exampleClientConstants
      (constTransport (okResponse htmlPage.type htmlPage.text none)) []
      "https://misresultados.com/pdf/abc.pdf".toList).2.2.1 _ rfl (by decide) (by decide)
      (by decide),
    (getPDFBlob_spec exampleClientConstants (constTransport errorResponse) []
      "https://misresultados.com/pdf/abc.pdf".toList).2.1 _ rfl (by decide)⟩

/-- C12: `fetchResults` fails with an HTTP-status error exactly when the GET response has a
non-success status, or the GET succeeded and the POST response has a non-success status.
It calls `fetch` for the GET alone or for the GET and then the POST, the POST exactly when
the GET was answered with a success status.  When both succeed it returns what
`parseResults` returns on the body of the POST response; in particular an empty list is
returned as a result, not thrown. -/
theorem fetchResults_spec (ck : ClientConstants) (fetch : Transport) (history : List Request)
    (sessionId : Option Str) (patientInfo : PatientInfo) (control license : Str) :
    ((∃ status statusText,
        (fetchResults ck fetch history sessionId patientInfo control license).result =
          .error (ClientError.httpStatus status statusText)) ↔
      ((∃ r, fetch history (getRequest (buildPatientUrl ck control license)) = some r ∧
          r.ok = false) ∨
        (∃ r1 r2, fetch history (getRequest (buildPatientUrl ck control license)) = some r1 ∧
          r1.ok = true ∧
          fetch (history ++ [getRequest (buildPatientUrl ck control license)])
            (postRequest ck (buildPatientUrl ck control license)
              (buildFormData ck patientInfo control license)) = some r2 ∧
          r2.ok = false))) ∧
    ((fetchResults ck fetch history sessionId patientInfo control license).requests =
        [getRequest (buildPatientUrl ck control license)] ∨
      (fetchResults ck fetch history sessionId patientInfo control license).requests =
        [getRequest (buildPatientUrl ck control license),
          postRequest ck (buildPatientUrl ck control license)
            (buildFormData ck patientInfo control license)]) ∧
    (postRequest ck (buildPatientUrl ck control license)
        (buildFormData ck patientInfo control license) ∈
        (fetchResults ck fetch history sessionId patientInfo control license).requests ↔
      ∃ r, fetch history (getRequest (buildPatientUrl ck control license)) = some r ∧
        r.ok = true) ∧
    (∀ r1 r2, fetch history (getRequest (buildPatientUrl ck control license)) = some r1 →
      r1.ok = true →
      fetch (history ++ [getRequest (buildPatientUrl ck control license)])
        (postRequest ck (buildPatientUrl ck control license)
          (buildFormData ck patientInfo control license)) = some r2 →
      r2.ok = true →
      ∃ results, parseResults ck.toConstants r2.blob.text = .ok results ∧
        (fetchResults ck fetch history sessionId patientInfo control license).result =
          .ok results) := by
  have hne : ∀ (url : Str) (form : List (Str × Str)), postRequest ck url form ≠ getRequest url := by
    intro url form h
    have hm := congrArg Request.method h
    simp [postRequest, getRequest] at hm
  cases hget : fetch history (getRequest (buildPatientUrl ck control license)) with
  | none =>
    refine ⟨?_, ?_, ?_, ?_⟩
    · simp [fetchResults, hget]
    · left
      simp [fetchResults, hget]
    · simp [fetchResults, hget, hne]
    · intro r1 r2 h
      cases h
  | some r1 =>
    cases hok1 : r1.ok with
    | false =>
      refine ⟨?_, ?_, ?_, ?_⟩
      · simp [fetchResults, hget, hok1]
      · left
        simp [fetchResults, hget, hok1]
      · simp [fetchResults, hget, hok1, hne]
      · intro r r2 h hr
        cases h
        rw [hok1] at hr
        cases hr
    | true =>
      cases hpost : fetch (history ++ [getRequest (buildPatientUrl ck control license)])
          (postRequest ck (buildPatientUrl ck control license)
            (buildFormData ck patientInfo control license)) with
      | none =>
        refine ⟨?_, ?_, ?_, ?_⟩
        · simp [fetchResults, hget, hok1, hpost]
        · right
          simp [fetchResults, hget, hok1, hpost]
        · simp [fetchResults, hget, hok1, hpost]
        · intro r r2 _ _ h
          cases h
      | some r2 =>
        cases hok2 : r2.ok with
        | false =>
          refine ⟨?_, ?_, ?_, ?_⟩
          · simp [fetchResults, hget, hok1, hpost, hok2]
          · right
            simp [fetchResults, hget, hok1, hpost, hok2]
          · simp [fetchResults, hget, hok1, hpost, hok2]
          · intro r r3 _ _ h hr
            cases h
            rw [hok2] at hr
            cases hr
        | true =>
          obtain ⟨results, hres⟩ := (parseResults_total ck.toConstants r2.blob.text)
          refine ⟨?_, ?_, ?_, ?_⟩
          · simp [fetchResults, hget, hok1, hpost, hok2, hres]
          · right
            simp [fetchResults, hget, hok1, hpost, hok2, hres]
          · simp [fetchResults, hget, hok1, hpost, hok2, hres]
          · intro r r3 h _ h3 _
            cases h
            cases h3
            exact ⟨results, hres, by simp [fetchResults, hget, hok1, hpost, hok2, hres]⟩

/-- On the example portal the run makes the GET and then the POST and returns the record of
scenario A; when the form submission is answered with status 500 the run fails with the
HTTP-status error. -/
theorem fetchResults_spec_witness :
    (fetchResults exampleClientConstants portalTransport [] none examplePatient
      "000123".toList "LAB01".toList).result = .ok [recordA] ∧
    (∃ status statusText,
      (fetchResults exampleClientConstants failingPostTransport [] none examplePatient
        "000123".toList "LAB01".toList).result =
        .error (ClientError.httpStatus status statusText)) := by
  set_option maxRecDepth 100000 in
  refine ⟨?_, ?_⟩
  · obtain ⟨results, h1, h2⟩ := (fetchResults_spec exampleClientConstants portalTransport [] none
      examplePatient "000123".toList "LAB01".toList).2.2.2 _ _ rfl (by decide) rfl (by decide)
    have h3 : parseResults exampleClientConstants.toConstants
        (okResponse "text/html".toList scenarioA
          (some "PHPSESSID=abc123; path=/".toList)).blob.text = .ok [recordA] := by decide
    rw [h3] at h1
    cases h1
    exact h2
  · exact (fetchResults_spec exampleClientConstants failingPostTransport [] none
      examplePatient "000123".toList "LAB01".toList).1.mpr
      (Or.inr ⟨_, _, rfl, by decide, rfl, by decide⟩)

/-- C13: `fetchAndDisplayResults` lets no error through.  When `fetchResults` throws, the
stored list `currentResults` is left as it was; and whenever the stored list changes, it
has become the non-empty list returned by a successful `fetchResults`. -/
theorem fetchAndDisplayResults_keeps_results (ck : ClientConstants) (fetch : Transport)
    (patientInfo : Option PatientInfo) (control license : Str) (st : AppState) :
    (fetchAndDisplayResults ck fetch patientInfo control license st).1 = none ∧
    (∀ info e, patientInfo = some info →
      (fetchResults ck fetch st.requests st.sessionId info control license).result = .error e →
      (fetchAndDisplayResults ck fetch patientInfo control license st).2.currentResults =
        st.currentResults) ∧
    ((fetchAndDisplayResults ck fetch patientInfo control license st).2.currentResults =
        st.currentResults ∨
      ∃ info results, patientInfo = some info ∧
        (fetchResults ck fetch st.requests st.sessionId info control license).result =
          .ok results ∧
        results ≠ [] ∧
        (fetchAndDisplayResults ck fetch patientInfo control license st).2.currentResults =
          results) := by
  cases patientInfo with
  | none =>
    refine ⟨rfl, ?_, Or.inl rfl⟩
    intro info e h
    cases h
  | some info =>
    cases hres : (fetchResults ck fetch st.requests st.sessionId info control license).result with
    | error e =>
      have htry : fetchAndDisplayTry ck fetch info control license st =
          (some e, { st with
            ui := st.ui ++ [UiCall.showLoading "loading.fetchingResults".toList]
            sessionId :=
              (fetchResults ck fetch st.requests st.sessionId info control license).sessionId
            requests := st.requests ++
              (fetchResults ck fetch st.requests st.sessionId info control license).requests }) := by
        simp only [fetchAndDisplayTry, hres]
      refine ⟨?_, ?_, Or.inl ?_⟩
      · simp only [fetchAndDisplayResults, htry]
      · intro _ _ _ _
        simp only [fetchAndDisplayResults, htry]
      · simp only [fetchAndDisplayResults, htry]
    | ok results =>
      cases results with
      | nil =>
        refine ⟨?_, ?_, Or.inl ?_⟩
        · simp [fetchAndDisplayResults, fetchAndDisplayTry, hres]
        · intro info1 e hinfo h
          cases hinfo
          rw [hres] at h
          cases h
        · simp [fetchAndDisplayResults, fetchAndDisplayTry, hres]
      | cons r rest =>
        refine ⟨?_, ?_, Or.inr ⟨info, r :: rest, rfl, hres, by simp, ?_⟩⟩
        · simp [fetchAndDisplayResults, fetchAndDisplayTry, hres]
        · intro info1 e hinfo h
          cases hinfo
          rw [hres] at h
          cases h
        · simp [fetchAndDisplayResults, fetchAndDisplayTry, hres]

/-- With one stored result, a fetch cycle that fails with status 500 leaves the stored list
as it was and lets no error through. -/
theorem fetchAndDisplayResults_keeps_results_witness :
    (fetchAndDisplayResults exampleClientConstants failingPostTransport (some examplePatient)
      "000123".toList "LAB01".toList exampleState).1 = none ∧
    (fetchAndDisplayResults exampleClientConstants failingPostTransport (some examplePatient)
      "000123".toList "LAB01".toList exampleState).2.currentResults = [recordA] := by
  set_option maxRecDepth 100000 in
  exact ⟨(fetchAndDisplayResults_keeps_results exampleClientConstants failingPostTransport
      (some examplePatient) "000123".toList "LAB01".toList exampleState).1,
    (fetchAndDisplayResults_keeps_results exampleClientConstants failingPostTransport
      (some examplePatient) "000123".toList "LAB01".toList exampleState).2.1 examplePatient
      (ClientError.httpStatus 500 "Internal Server Error".toList) rfl (by decide)⟩

/-! ## The cell-cleaning step -/

theorem contains_true_iff (s : Str) (x : Char) : s.contains x = true ↔ x ∈ s := by
  simp [List.contains]

theorem contains_false_iff (s : Str) (x : Char) : s.contains x = false ↔ x ∉ s := by
  rw [← contains_true_iff]
  cases s.contains x <;> simp

theorem mem_stripTagsGo (x : Char) : ∀ (s : Str) (b : Bool), x ∈ stripTagsGo b s → x ∈ s
  | [], b, h => by cases b <;> simp [stripTagsGo] at h
  | c :: s, true, h => by
    rw [stripTagsGo] at h
    split at h
    · exact List.mem_cons_of_mem _ (mem_stripTagsGo x s false h)
    · exact List.mem_cons_of_mem _ (mem_stripTagsGo x s true h)
  | c :: s, false, h => by
    rw [stripTagsGo] at h
    split at h
    · exact List.mem_cons_of_mem _ (mem_stripTagsGo x s true h)
    · rcases List.mem_cons.mp h with h | h
      · exact h ▸ List.mem_cons_self _ _
      · exact List.mem_cons_of_mem _ (mem_stripTagsGo x s false h)

theorem mem_stripEntitiesGo (x : Char) : ∀ (s : Str) (b : Bool), x ∈ stripEntitiesGo b s → x ∈ s
  | [], b, h => by cases b <;> simp [stripEntitiesGo] at h
  | c :: s, true, h => by
    rw [stripEntitiesGo] at h
    split at h
    · exact List.mem_cons_of_mem _ (mem_stripEntitiesGo x s false h)
    · exact List.mem_cons_of_mem _ (mem_stripEntitiesGo x s true h)
  | c :: s, false, h => by
    rw [stripEntitiesGo] at h
    split at h
    · exact List.mem_cons_of_mem _ (mem_stripEntitiesGo x s true h)
    · rcases List.mem_cons.mp h with h | h
      · exact h ▸ List.mem_cons_self _ _
      · exact List.mem_cons_of_mem _ (mem_stripEntitiesGo x s false h)

theorem stripEntitiesGo_sublist : ∀ (s : Str) (b : Bool), (stripEntitiesGo b s).Sublist s
  | [], b => by cases b <;> simp [stripEntitiesGo]
  | c :: s, true => by
    rw [stripEntitiesGo]
    split
    · exact (stripEntitiesGo_sublist s false).cons _
    · exact (stripEntitiesGo_sublist s true).cons _
  | c :: s, false => by
    rw [stripEntitiesGo]
    split
    · exact (stripEntitiesGo_sublist s true).cons _
    · exact (stripEntitiesGo_sublist s false).cons₂ _

theorem hasTag_stripTagsGo : ∀ (s : Str) (b : Bool), hasTag (stripTagsGo b s) = false
  | [], b => by cases b <;> simp [stripTagsGo, hasTag]
  | c :: s, true => by
    rw [stripTagsGo]
    split
    · exact hasTag_stripTagsGo s false
    · exact hasTag_stripTagsGo s true
  | c :: s, false => by
    rw [stripTagsGo]
    split
    · exact hasTag_stripTagsGo s true
    · rename_i hc
      rw [hasTag, hasTag_stripTagsGo s false, Bool.or_false, Bool.and_eq_false_iff]
      by_cases h1 : c = '<'
      · right
        have hno : '>' ∉ s := fun hmem => hc ⟨h1, hmem⟩
        rw [contains_false_iff]
        exact fun hmem => hno (mem_stripTagsGo '>' s false hmem)
      · left
        simpa using h1

theorem hasTag_of_sublist {u t : Str} (h : u.Sublist t) : hasTag u = true → hasTag t = true := by
  induction h with
  | slnil => exact id
  | cons a _ ih =>
    intro hu
    rw [hasTag, ih hu, Bool.or_true]
  | cons₂ a hsub ih =>
    rename_i u1 t1
    intro hu
    rw [hasTag, Bool.or_eq_true, Bool.and_eq_true] at hu
    rw [hasTag, Bool.or_eq_true, Bool.and_eq_true]
    rcases hu with ⟨h1, h2⟩ | hu
    · left
      refine ⟨h1, ?_⟩
      rw [contains_true_iff] at h2 ⊢
      exact hsub.subset h2
    · right
      exact ih hu

theorem hasTag_false_of_sublist {u t : Str} (h : u.Sublist t) (ht : hasTag t = false) :
    hasTag u = false := by
  cases hu : hasTag u with
  | false => rfl
  | true => rw [hasTag_of_sublist h hu] at ht; cases ht

theorem entityTail_head (s1 : Str) : entityTail (';' :: s1) = false := by
  simp [entityTail]

theorem entityTail_of_not_mem (s : Str) (h : ';' ∉ s) : entityTail s = false := by
  cases s with
  | nil => rfl
  | cons d t =>
    rw [entityTail, Bool.and_eq_false_iff]
    right
    rw [contains_false_iff]
    exact fun hm => h (List.mem_cons_of_mem _ hm)

theorem entityTail_iff (s : Str) : entityTail s = true ↔ (s.head? ≠ some ';' ∧ ';' ∈ s) := by
  cases s with
  | nil => simp [entityTail]
  | cons d t =>
    simp only [entityTail, Bool.and_eq_true, List.head?_cons, List.mem_cons, contains_true_iff,
      bne_iff_ne, ne_eq, Option.some.injEq]
    constructor
    · rintro ⟨h1, h2⟩
      exact ⟨h1, Or.inr h2⟩
    · rintro ⟨h1, h2⟩
      refine ⟨h1, ?_⟩
      rcases h2 with h2 | h2
      · exact absurd h2.symm h1
      · exact h2

theorem hasEntity_stripEntitiesGo : ∀ (s : Str) (b : Bool), hasEntity (stripEntitiesGo b s) = false
  | [], b => by cases b <;> simp [stripEntitiesGo, hasEntity]
  | c :: s, true => by
    rw [stripEntitiesGo]
    split
    · exact hasEntity_stripEntitiesGo s false
    · exact hasEntity_stripEntitiesGo s true
  | c :: s, false => by
    rw [stripEntitiesGo]
    split
    · exact hasEntity_stripEntitiesGo s true
    · rename_i hc
      rw [hasEntity, hasEntity_stripEntitiesGo s false, Bool.or_false, Bool.and_eq_false_iff]
      by_cases h1 : c = '&'
      · right
        by_cases h2 : ';' ∈ s
        · have h3 : s.head? = some ';' := by
            by_contra h3
            exact hc ⟨h1, h3, h2⟩
          cases s with
          | nil => simp at h3
          | cons d t =>
            simp only [List.head?_cons, Option.some.injEq] at h3
            subst h3
            rw [stripEntitiesGo, if_neg (by simp)]
            exact entityTail_head _
        · exact entityTail_of_not_mem _ (fun hm => h2 (mem_stripEntitiesGo ';' s false hm))
      · left
        simpa using h1

theorem hasEntity_append_right (v : Str) : ∀ u : Str, hasEntity u = true → hasEntity (u ++ v) = true
  | [], h => by simp [hasEntity] at h
  | c :: u, h => by
    rw [hasEntity, Bool.or_eq_true, Bool.and_eq_true] at h
    rw [List.cons_append, hasEntity, Bool.or_eq_true, Bool.and_eq_true]
    rcases h with ⟨h1, h2⟩ | h
    · left
      refine ⟨h1, ?_⟩
      rw [entityTail_iff] at h2 ⊢
      obtain ⟨h3, h4⟩ := h2
      refine ⟨?_, List.mem_append_left _ h4⟩
      cases u with
      | nil => simp at h4
      | cons d t => simpa using h3
    · right
      exact hasEntity_append_right v u h

theorem hasEntity_append_left (u : Str) : ∀ v : Str, hasEntity u = true → hasEntity (v ++ u) = true
  | [], h => h
  | c :: v, h => by
    rw [List.cons_append, hasEntity, hasEntity_append_left u v h, Bool.or_true]

theorem hasEntity_trim (s : Str) (h : hasEntity s = false) : hasEntity (trim s) = false := by
  cases ht : hasEntity (trim s) with
  | false => rfl
  | true =>
    have h1 : ((s.dropWhile isWhiteSpace).rdropWhile isWhiteSpace) <+: s.dropWhile isWhiteSpace :=
      List.rdropWhile_prefix isWhiteSpace _
    have h2 : s.dropWhile isWhiteSpace <:+ s := List.dropWhile_suffix _
    obtain ⟨v, hv⟩ := h1
    obtain ⟨w, hw⟩ := h2
    have h3 : hasEntity (s.dropWhile isWhiteSpace) = true := by
      rw [← hv]
      exact hasEntity_append_right v _ ht
    have h4 : hasEntity s = true := by
      rw [← hw]
      exact hasEntity_append_left _ w h3
    rw [h4] at h
    cases h

theorem trim_sublist (s : Str) : (trim s).Sublist s :=
  ((List.rdropWhile_prefix isWhiteSpace _).sublist).trans (List.dropWhile_sublist _)

theorem isTrimmed_trim (s : Str) : isTrimmed (trim s) = true := by
  have hlast : ∀ c, (trim s).getLast? = some c → isWhiteSpace c = false := by
    intro c hc
    have hne : (s.dropWhile isWhiteSpace).rdropWhile isWhiteSpace ≠ [] := by
      intro h0
      have : trim s = [] := h0
      rw [this] at hc
      cases hc
    have hnot := List.rdropWhile_last_not isWhiteSpace (s.dropWhile isWhiteSpace) hne
    have hc1 : (trim s).getLast? =
        some (((s.dropWhile isWhiteSpace).rdropWhile isWhiteSpace).getLast hne) :=
      List.getLast?_eq_getLast _ hne
    rw [hc1] at hc
    cases hc
    simpa using hnot
  have hhead : ∀ c, (trim s).head? = some c → isWhiteSpace c = false := by
    intro c hc
    obtain ⟨v, hv⟩ : trim s <+: s.dropWhile isWhiteSpace := List.rdropWhile_prefix isWhiteSpace _
    have h1 : (s.dropWhile isWhiteSpace).head? = some c := by
      rw [← hv]
      cases ht : trim s with
      | nil => rw [ht] at hc; cases hc
      | cons d t => rw [ht] at hc; simpa using hc
    have h2 := List.head?_dropWhile_not isWhiteSpace s
    rw [h1] at h2
    simpa using h2
  unfold isTrimmed
  cases h1 : (trim s).head? with
  | none =>
    cases h2 : (trim s).getLast? with
    | none => rfl
    | some c => simp [hlast c h2]
  | some d =>
    cases h2 : (trim s).getLast? with
    | none => simp [hhead d h1]
    | some c => simp [hlast c h2, hhead d h1]

theorem stripTagsGo_fixed : ∀ s : Str, hasTag s = false → stripTagsGo false s = s
  | [], _ => rfl
  | c :: s, h => by
    rw [hasTag, Bool.or_eq_false_iff, Bool.and_eq_false_iff] at h
    obtain ⟨h1, h2⟩ := h
    rw [stripTagsGo, if_neg, stripTagsGo_fixed s h2]
    rintro ⟨hc, hmem⟩
    rcases h1 with h1 | h1
    · simp [hc] at h1
    · rw [contains_false_iff] at h1
      exact h1 hmem

theorem stripEntitiesGo_fixed : ∀ s : Str, hasEntity s = false → stripEntitiesGo false s = s
  | [], _ => rfl
  | c :: s, h => by
    rw [hasEntity, Bool.or_eq_false_iff, Bool.and_eq_false_iff] at h
    obtain ⟨h1, h2⟩ := h
    rw [stripEntitiesGo, if_neg, stripEntitiesGo_fixed s h2]
    rintro ⟨hc, hhead, hmem⟩
    rcases h1 with h1 | h1
    · simp [hc] at h1
    · have := (entityTail_iff s).mpr ⟨hhead, hmem⟩
      rw [this] at h1
      cases h1

theorem trim_fixed (s : Str) (h : isTrimmed s = true) : trim s = s := by
  unfold isTrimmed at h
  rw [Bool.and_eq_true] at h
  obtain ⟨h1, h2⟩ := h
  have hd : s.dropWhile isWhiteSpace = s := by
    cases s with
    | nil => rfl
    | cons c t =>
      have hc : isWhiteSpace c = false := by
        cases hw : isWhiteSpace c with
        | false => rfl
        | true => simp [hw] at h1
      simp [List.dropWhile, hc]
  have hr : s.rdropWhile isWhiteSpace = s := by
    rw [List.rdropWhile_eq_self_iff]
    intro hne
    have hl : s.getLast? = some (s.getLast hne) := List.getLast?_eq_getLast _ hne
    rw [hl] at h2
    cases hw : isWhiteSpace (s.getLast hne) with
    | false => simp
    | true => simp [hw] at h2
  show (s.dropWhile isWhiteSpace).rdropWhile isWhiteSpace = s
  rw [hd, hr]

theorem cleanCell_clean (s : Str) :
    hasTag (cleanCell s) = false ∧ hasEntity (cleanCell s) = false ∧
      isTrimmed (cleanCell s) = true := by
  refine ⟨?_, ?_, isTrimmed_trim _⟩
  · exact hasTag_false_of_sublist
      ((trim_sublist _).trans (stripEntitiesGo_sublist _ false)) (hasTag_stripTagsGo s false)
  · exact hasEntity_trim _ (hasEntity_stripEntitiesGo _ false)

theorem cleanCell_fixed (s : Str) (h1 : hasTag s = false) (h2 : hasEntity s = false)
    (h3 : isTrimmed s = true) : cleanCell s = s := by
  rw [cleanCell, stripTags, stripTagsGo_fixed s h1, stripEntities, stripEntitiesGo_fixed s h2,
    trim_fixed s h3]

theorem hasTag_iff (s : Str) :
    hasTag s = true ↔ ∃ a b c, s = a ++ '<' :: b ++ '>' :: c := by
  constructor
  · intro h
    induction s with
    | nil => simp [hasTag] at h
    | cons x s ih =>
      rw [hasTag, Bool.or_eq_true, Bool.and_eq_true, contains_true_iff] at h
      rcases h with ⟨h1, h2⟩ | h
      · obtain ⟨b, c, hbc⟩ := List.append_of_mem h2
        refine ⟨[], b, c, ?_⟩
        have hx : x = '<' := by simpa using h1
        rw [hx, hbc]
        simp
      · obtain ⟨a, b, c, habc⟩ := ih h
        exact ⟨x :: a, b, c, by rw [habc]; simp⟩
  · rintro ⟨a, b, c, rfl⟩
    induction a with
    | nil =>
      rw [List.nil_append, List.cons_append, hasTag, Bool.or_eq_true, Bool.and_eq_true,
        contains_true_iff]
      exact Or.inl ⟨by simp, by simp⟩
    | cons x a ih =>
      rw [List.cons_append, List.cons_append, hasTag, Bool.or_eq_true]
      right
      simpa using ih

theorem hasEntity_of_parts (a b c : Str) (hb : b ≠ []) (hno : ';' ∉ b) :
    hasEntity (a ++ '&' :: b ++ ';' :: c) = true := by
  have hcore : hasEntity ('&' :: b ++ ';' :: c) = true := by
    rw [List.cons_append, hasEntity, Bool.or_eq_true, Bool.and_eq_true, entityTail_iff]
    refine Or.inl ⟨by simp, ?_, by simp⟩
    cases b with
    | nil => exact absurd rfl hb
    | cons d t =>
      simp only [List.cons_append, List.head?_cons, ne_eq, Option.some.injEq]
      intro hd
      exact hno (hd ▸ List.mem_cons_self _ _)
  have := hasEntity_append_left ('&' :: b ++ ';' :: c) a hcore
  simpa using this

/-- C14: for every string the cell-cleaning step returns a string that contains no markup
tag (no `<` followed later by a `>`), contains no character-entity sequence (no `&`
followed by one or more characters other than `;` and then a `;`), and neither starts nor
ends with white space; cleaning a cleaned string changes nothing; and the order, license
and transmitted of every record returned by `parseResults` have the three properties. -/
theorem cleanCell_spec (s : Str) :
    hasTag (cleanCell s) = false ∧ hasEntity (cleanCell s) = false ∧
    isTrimmed (cleanCell s) = true ∧
    cleanCell (cleanCell s) = cleanCell s ∧
    (∀ (k : Constants) (html : Str) (rs : List ResultRecord) (r : ResultRecord),
      parseResults k html = .ok rs → r ∈ rs →
      (hasTag r.order = false ∧ hasEntity r.order = false ∧ isTrimmed r.order = true) ∧
      (hasTag r.license = false ∧ hasEntity r.license = false ∧ isTrimmed r.license = true) ∧
      (hasTag r.transmitted = false ∧ hasEntity r.transmitted = false ∧
        isTrimmed r.transmitted = true)) := by
  obtain ⟨h1, h2, h3⟩ := cleanCell_clean s
  refine ⟨h1, h2, h3, cleanCell_fixed _ h1 h2 h3, ?_⟩
  intro k html rs r hrun hr
  cases htable : matchTable k html with
  | none =>
    simp [parseResults, htable] at hrun
    subst hrun
    simp at hr
  | some tableHtml =>
    rw [parseResults_eq k html tableHtml htable] at hrun
    cases hrun
    obtain ⟨row, _, hrow⟩ := mem_tableRecords k r _ hr
    obtain ⟨_, _, link, c1, c2, c3, _, _, _, _, hrec, _⟩ := mem_rowRecords k row r hrow
    subst hrec
    exact ⟨cleanCell_clean c1, cleanCell_clean c2, cleanCell_clean c3⟩

/-- The cell ` <b>LAB01&nbsp;</b> ` is cleaned to `LAB01`, and the fields of the record of
scenario A are free of tags and entities and trimmed. -/
theorem cleanCell_spec_witness :
    cleanCell " <b>LAB01&nbsp;</b> ".toList = "LAB01".toList ∧
    cleanCell (cleanCell " <b>LAB01&nbsp;</b> ".toList) = cleanCell " <b>LAB01&nbsp;</b> ".toList ∧
    (hasTag recordA.order = false ∧ hasEntity recordA.order = false ∧
      isTrimmed recordA.order = true) := by
  set_option maxRecDepth 100000 in
  exact ⟨by decide, (cleanCell_spec " <b>LAB01&nbsp;</b> ".toList).2.2.2.1,
    ((cleanCell_spec []).2.2.2.2 exampleConstants scenarioA [recordA] recordA (by decide)
      (List.mem_singleton.mpr rfl)).1⟩

/-! ## The round trip from a built link to its lookup key -/

theorem splitGo_single_last (x : Char) :
    ∀ (a acc : Str), x ∉ a → splitGo [x] 0 acc a = [acc.reverse ++ a]
  | [], acc, _ => by simp [splitGo]
  | c :: a, acc, h => by
    have hc : x ≠ c := fun hxc => h (hxc ▸ List.mem_cons_self _ _)
    have ha : x ∉ a := fun hm => h (List.mem_cons_of_mem _ hm)
    rw [splitGo, if_neg (by simp [List.isPrefixOf, hc]), splitGo_single_last x a (c :: acc) ha]
    simp

theorem splitGo_single_cut (x : Char) (rest : Str) :
    ∀ (a acc : Str), x ∉ a →
      splitGo [x] 0 acc (a ++ x :: rest) = (acc.reverse ++ a) :: splitGo [x] 0 [] rest
  | [], acc, _ => by
    rw [List.nil_append, splitGo, if_pos (by simp [List.isPrefixOf])]
    simp
  | c :: a, acc, h => by
    have hc : x ≠ c := fun hxc => h (hxc ▸ List.mem_cons_self _ _)
    have ha : x ∉ a := fun hm => h (List.mem_cons_of_mem _ hm)
    rw [List.cons_append, splitGo, if_neg (by simp [List.isPrefixOf, hc]),
      splitGo_single_cut x rest a (c :: acc) ha]
    simp

theorem isAsciiAlnum_ne (c d : Char) (hc : isAsciiAlnum c = true) (hd : isAsciiAlnum d = false) :
    c ≠ d := by
  intro h
  rw [h, hd] at hc
  cases hc

theorem not_mem_of_alnum (x : Char) (hx : isAsciiAlnum x = false) (s : Str)
    (hs : ∀ c ∈ s, isAsciiAlnum c = true) : x ∉ s :=
  fun hm => isAsciiAlnum_ne x x (hs x hm) hx rfl

theorem queryEntries_pair (control license : Str)
    (hca : ∀ c ∈ control, isAsciiAlnum c = true) (hla : ∀ c ∈ license, isAsciiAlnum c = true) :
    queryEntries ("controlnumber=".toList ++ control ++ '&' :: ("lablicense=".toList ++ license)) =
      [("controlnumber".toList, control), ("lablicense".toList, license)] := by
  have h1 : '&' ∉ "controlnumber=".toList ++ control := by
    intro hm
    rcases List.mem_append.mp hm with hm | hm
    · revert hm
      decide
    · exact not_mem_of_alnum '&' (by decide) control hca hm
  have h2 : '&' ∉ "lablicense=".toList ++ license := by
    intro hm
    rcases List.mem_append.mp hm with hm | hm
    · revert hm
      decide
    · exact not_mem_of_alnum '&' (by decide) license hla hm
  have hsplit : split ("controlnumber=".toList ++ control ++ '&' :: ("lablicense=".toList ++ license))
      "&".toList = ["controlnumber=".toList ++ control, "lablicense=".toList ++ license] := by
    show splitGo ['&'] 0 [] _ = _
    rw [splitGo_single_cut '&' _ _ [] h1, splitGo_single_last '&' _ [] h2]
    simp
  rw [queryEntries, hsplit]
  simp [List.takeWhile, List.dropWhile]

theorem parseUrlParams_of_entries (k : Constants)
    (newURL : Str → Except JsError (List (Str × Str))) (url control license : Str)
    (hc : control ≠ []) (hl : license ≠ [])
    (hurl : newURL url = .ok [("controlnumber".toList, control), ("lablicense".toList, license)]) :
    parseUrlParams k newURL url = some { control := some control, license := some license } := by
  have h1 : queryControl [("controlnumber".toList, control), ("lablicense".toList, license)] =
      some control := by
    have hget : searchParamsGet [("controlnumber".toList, control), ("lablicense".toList, license)]
        "controlnumber".toList = some control := by
      simp [searchParamsGet, List.find?]
    rw [queryControl, hget, jsOr_of_nonempty control _ hc]
  have h2 : queryLicense [("controlnumber".toList, control), ("lablicense".toList, license)] =
      some license := by
    have hget : searchParamsGet [("controlnumber".toList, control), ("lablicense".toList, license)]
        "lablicense".toList = some license := by
      simp [searchParamsGet, List.find?]
    rw [queryLicense, hget, jsOr_of_nonempty license _ hl]
  simp only [parseUrlParams, hurl, h1, h2]
  rw [truthyOpt_some_of_nonempty control hc, truthyOpt_some_of_nonempty license hl]
  rfl

theorem isAsciiAlnum_not_special (c : Char) (h : isAsciiAlnum c = true ∨ c = '=' ∨ c = '&') :
    (c == '#' || c == '%' || c == '+' || isWhiteSpace c) = false := by
  rcases h with h | h | h
  · have hn : (48 ≤ c.toNat ∧ c.toNat ≤ 57) ∨ (65 ≤ c.toNat ∧ c.toNat ≤ 90) ∨
        (97 ≤ c.toNat ∧ c.toNat ≤ 122) := by
      simpa [isAsciiAlnum, or_assoc] using h
    have h35 : c ≠ '#' := by
      intro hc
      rw [hc] at hn
      revert hn
      decide
    have h37 : c ≠ '%' := by
      intro hc
      rw [hc] at hn
      revert hn
      decide
    have h43 : c ≠ '+' := by
      intro hc
      rw [hc] at hn
      revert hn
      decide
    have hws : isWhiteSpace c = false := by
      simp only [isWhiteSpace, Bool.or_eq_false_iff, Bool.and_eq_false_iff, decide_eq_false_iff_not,
        List.mem_cons, List.mem_singleton, List.not_mem_nil, or_false]
      omega
    simp [h35, h37, h43, hws]
  · rw [h]
    decide
  · rw [h]
    decide

theorem exampleURL_queryless :
    QuerylessURL exampleURL (exampleClientConstants.BASE_URL ++ exampleClientConstants.PATIENT_PATH) := by
  intro query hq
  have hany : (query.any (fun c => c == '#' || c == '%' || c == '+' || isWhiteSpace c)) = false := by
    rw [List.any_eq_false]
    intro c hc
    simp only [isAsciiAlnum_not_special c (hq c hc)]
    simp
  have hbase : exampleClientConstants.BASE_URL ++ exampleClientConstants.PATIENT_PATH =
      "https://misresultados.com/patient".toList := by decide
  rw [hbase]
  simp only [exampleURL]
  rw [if_pos]
  · simp [List.dropWhile]
  · refine ⟨by simp [List.isPrefixOf], ?_⟩
    rw [List.any_append, List.any_cons, hany]
    decide

/-- C15: for a non-empty control and a non-empty license made of ASCII letters and digits,
and a base origin and patient path that form a well-formed absolute URL without a query,
`parseUrlParams` applied to `buildPatientUrl(control, license)` returns the key with that
control and that license; and the built URL is the base origin, the patient path,
`?controlnumber=`, the control, `&lablicense=` and the license, one after the other. -/
theorem parseUrlParams_buildPatientUrl (ck : ClientConstants)
    (newURL : Str → Except JsError (List (Str × Str))) (control license : Str)
    (hc : control ≠ []) (hl : license ≠ [])
    (hca : ∀ c ∈ control, isAsciiAlnum c = true) (hla : ∀ c ∈ license, isAsciiAlnum c = true)
    (hbase : QuerylessURL newURL (ck.BASE_URL ++ ck.PATIENT_PATH)) :
    parseUrlParams ck.toConstants newURL (buildPatientUrl ck control license) =
      some { control := some control, license := some license } ∧
    buildPatientUrl ck control license =
      ck.BASE_URL ++ ck.PATIENT_PATH ++ "?controlnumber=".toList ++ control
        ++ "&lablicense=".toList ++ license := by
  refine ⟨?_, rfl⟩
  have hshape : buildPatientUrl ck control license =
      (ck.BASE_URL ++ ck.PATIENT_PATH) ++
        '?' :: ("controlnumber=".toList ++ control ++ '&' :: ("lablicense=".toList ++ license)) := by
    simp [buildPatientUrl]
  have hname1 : ∀ c ∈ "controlnumber=".toList, isAsciiAlnum c = true ∨ c = '=' ∨ c = '&' := by
    decide
  have hname2 : ∀ c ∈ "lablicense=".toList, isAsciiAlnum c = true ∨ c = '=' ∨ c = '&' := by
    decide
  have hchars : ∀ c ∈ "controlnumber=".toList ++ control ++ '&' :: ("lablicense=".toList ++ license),
      isAsciiAlnum c = true ∨ c = '=' ∨ c = '&' := by
    intro c hm
    rcases List.mem_append.mp hm with hm | hm
    · rcases List.mem_append.mp hm with hm | hm
      · exact hname1 c hm
      · exact Or.inl (hca c hm)
    · rcases List.mem_cons.mp hm with hm | hm
      · exact Or.inr (Or.inr hm)
      · rcases List.mem_append.mp hm with hm | hm
        · exact hname2 c hm
        · exact Or.inl (hla c hm)
  have hparsed := hbase _ hchars
  rw [queryEntries_pair control license hca hla, ← hshape] at hparsed
  exact parseUrlParams_of_entries ck.toConstants newURL _ control license hc hl hparsed

/-- The link built for control `000123` and license `LAB01` is parsed back to that pair. -/
theorem parseUrlParams_buildPatientUrl_witness :
    buildPatientUrl exampleClientConstants "000123".toList "LAB01".toList =
      "https://misresultados.com/patient?controlnumber=000123&lablicense=LAB01".toList ∧
    parseUrlParams exampleConstants exampleURL
      "https://misresultados.com/patient?controlnumber=000123&lablicense=LAB01".toList =
      some { control := some "000123".toList, license := some "LAB01".toList } := by
  set_option maxRecDepth 100000 in
  have h := parseUrlParams_buildPatientUrl exampleClientConstants exampleURL "000123".toList
    "LAB01".toList (by decide) (by decide) (by decide) (by decide) exampleURL_queryless
  have hb : buildPatientUrl exampleClientConstants "000123".toList "LAB01".toList =
      "https://misresultados.com/patient?controlnumber=000123&lablicense=LAB01".toList := by
    decide
  refine ⟨hb, ?_⟩
  rw [← hb]
  exact h.1

end ResultadosMedicos
